import Mathlib

/-! SelectiveDeployment controller (EdgeNet)

A shallow embedding of `pkg/controller/v1alpha/selectivedeployment/controller.go`:
the informer callbacks registered in `Start` and the worker step
`processNextItem`, together with the properties of them that the specification
states.

Conventions of the embedding.

* A callback never touches the queue directly in the model: it returns the list
  of items on which it calls `queue.Add`, in call order, and the panic it ends
  with, if any (`CallbackResult`).  `WorkQueue.AddAll` replays those calls on a
  queue state.
* The closures of `Start` share one mutable variable `event`.  Every callback
  assigns both of its fields immediately before each `queue.Add(event)`, so run
  sequentially every push carries the pair just computed; the model builds that
  pair directly.  Interleavings of concurrent callbacks are outside the model.
* Values of Go type `interface{}` handed to a callback are values of `Obj`; the
  values stored in the queue are values of `QueueItem`.
* Calls to the cluster API and to helpers that live outside this file are read
  from a `Cluster` value that stays fixed during one callback.
-/

namespace selectivedeployment

/-! ## Constants of the source file -/

/-- State constant `failure`. -/
def failure : String := "Failure"

/-- State constant named `partial` in the source (a reserved word here). -/
def partialState : String := "Running Partially"

/-- State constant `success`. -/
def success : String := "Running"

/-- Operation constant `create`. -/
def create : String := "create"

/-- Operation constant `update`. -/
def update : String := "update"

/-- Operation constant `delete`. -/
def delete : String := "delete"

/-- Condition status constant `trueStr`. -/
def trueStr : String := "True"

/-- Condition status constant `falseStr`. -/
def falseStr : String := "False"

/-- Condition status constant `unknownStr`. -/
def unknownStr : String := "Unknown"

/-- Substring test of Go, `strings.Contains(s, substr)`. -/
def stringsContains (s substr : String) : Bool :=
  decide (substr.toList <:+: s.toList)

/-! ## Data model -/

/-- The queue item of the source: `type informerevent struct { key, function string }`. -/
structure informerevent where
  key : String
  function : String
deriving DecidableEq, Repr

/-- An owner reference of object metadata; the controller reads `Kind` and `Name`. -/
structure OwnerReference where
  Kind : String
  Name : String
deriving DecidableEq, Repr

/-- The part of `metav1.ObjectMeta` the controller reads. -/
structure ObjectMeta where
  Name : String
  Namespace : String
  OwnerReferences : List OwnerReference
deriving DecidableEq, Repr

/-- One entry of `spec.selector`; the controller reads only `Quantity` (a Go `int`). -/
structure Selector where
  Quantity : Int
deriving DecidableEq, Repr

/-- The fields of `SelectiveDeploymentSpec` read by the controller. -/
structure SelectiveDeploymentSpec where
  Selector : List Selector
  Recovery : Bool
deriving DecidableEq, Repr

/-- The status struct `SelectiveDeploymentStatus`, with all three of its fields:
`Ready`, `State` and the slice `Message`.  A Go slice is either nil or holds a
list of elements; `MessageSlice = none` is the nil slice and `some []` the empty
slice that is not nil. -/
structure SelectiveDeploymentStatus where
  Ready : String
  State : String
  MessageSlice : Option (List String)
deriving DecidableEq, Repr

/-- The elements of the field `Message`, as a `range` over it visits them: a nil
slice has none. -/
def SelectiveDeploymentStatus.Message (s : SelectiveDeploymentStatus) : List String :=
  s.MessageSlice.getD []

/-- Deep equality of two slices of strings as `reflect.DeepEqual` decides it:
both nil, or both not nil with the same elements in the same order. -/
def sliceDeepEqual : Option (List String) → Option (List String) → Bool
  | none, none => true
  | some x, some y => decide (x = y)
  | _, _ => false

/-- Deep equality of two status structs, `reflect.DeepEqual(a, b)`: every field
is compared, strings by value and the slice by `sliceDeepEqual`. -/
def DeepEqual (a b : SelectiveDeploymentStatus) : Bool :=
  decide (a.Ready = b.Ready) && decide (a.State = b.State) &&
    sliceDeepEqual a.MessageSlice b.MessageSlice

/-- The SelectiveDeployment resource (`apps_v1alpha.SelectiveDeployment`). -/
structure SelectiveDeployment where
  ObjectMeta : ObjectMeta
  Spec : SelectiveDeploymentSpec
  Status : SelectiveDeploymentStatus
deriving DecidableEq, Repr

/-- One row of `node.Status.Conditions` (`Type_` is the field `Type`). -/
structure NodeCondition where
  Type_ : String
  Status : String
deriving DecidableEq, Repr

/-- One row of `node.Status.Addresses` (`Type_` is the field `Type`). -/
structure NodeAddress where
  Type_ : String
  Address : String
deriving DecidableEq, Repr

/-- The field of `corev1.NodeSpec` read by the controller. -/
structure NodeSpec where
  Unschedulable : Bool
deriving DecidableEq, Repr

/-- The fields of `corev1.NodeStatus` read by the controller and its helpers. -/
structure NodeStatus where
  Conditions : List NodeCondition
  Addresses : List NodeAddress
deriving DecidableEq, Repr

/-- The node resource (`corev1.Node`). -/
structure Node where
  ObjectMeta : ObjectMeta
  Spec : NodeSpec
  Status : NodeStatus
deriving DecidableEq, Repr

/-- A child workload (Deployment, DaemonSet, StatefulSet, Job or CronJob): the
callbacks read its metadata only. -/
structure Workload where
  ObjectMeta : ObjectMeta
deriving DecidableEq, Repr

/-- The dynamic values an informer callback can receive as `interface{}`.
`DeletedFinalStateUnknown` is the tombstone of the cache package, which carries
a key and no object metadata; `other` stands for any value without metadata. -/
inductive Obj where
  | SelectiveDeployment (sd : SelectiveDeployment)
  | Node (n : Node)
  | Deployment (w : Workload)
  | DaemonSet (w : Workload)
  | StatefulSet (w : Workload)
  | Job (w : Workload)
  | CronJob (w : Workload)
  | DeletedFinalStateUnknown (Key : String)
  | other
deriving DecidableEq, Repr

/-- Metadata accessor (`meta.Accessor`): fails on values that carry no metadata. -/
def Obj.Accessor : Obj → Option ObjectMeta
  | .SelectiveDeployment sd => some sd.ObjectMeta
  | .Node n => some n.ObjectMeta
  | .Deployment w => some w.ObjectMeta
  | .DaemonSet w => some w.ObjectMeta
  | .StatefulSet w => some w.ObjectMeta
  | .Job w => some w.ObjectMeta
  | .CronJob w => some w.ObjectMeta
  | .DeletedFinalStateUnknown _ => none
  | .other => none

/-- The key built from metadata: `namespace/name`, or `name` alone when the
namespace is empty. -/
def namespaceKey (m : ObjectMeta) : String :=
  if m.Namespace.length > 0 then m.Namespace ++ "/" ++ m.Name else m.Name

/-- Key function `cache.MetaNamespaceKeyFunc`: the key of the metadata, or an
error for a value without metadata. -/
def MetaNamespaceKeyFunc (obj : Obj) : Except String String :=
  match obj.Accessor with
  | some m => .ok (namespaceKey m)
  | none => .error "object has no meta"

/-- Key function `cache.DeletionHandlingMetaNamespaceKeyFunc`: a tombstone
yields the key it carries, anything else goes through `MetaNamespaceKeyFunc`. -/
def DeletionHandlingMetaNamespaceKeyFunc (obj : Obj) : Except String String :=
  match obj with
  | .DeletedFinalStateUnknown k => .ok k
  | _ => MetaNamespaceKeyFunc obj

/-- The namespace/name key of a SelectiveDeployment. -/
def sdKey (sd : SelectiveDeployment) : String :=
  namespaceKey sd.ObjectMeta

/-- What a callback reads from outside the source file during one invocation.

* `sdList`: the items returned by `SelectiveDeployments("").List` (its error is
  discarded by the source).
* `getSD ns name`: the result of `SelectiveDeployments(ns).Get(name)`, `none`
  when the call returns an error.
* `GetConditionReadyStatus`, `CompareIPAddresses`: the helpers of package
  `node`, taken as parameters.
* `getByNode`: the query of the handler, owner entries `(namespace, name)` and
  the found flag, taken as a parameter. -/
structure Cluster where
  sdList : List SelectiveDeployment
  getSD : String → String → Option SelectiveDeployment
  GetConditionReadyStatus : Node → String
  CompareIPAddresses : Node → Node → Bool
  getByNode : String → List (String × String) × Bool

/-- The effect of one callback invocation: the items passed to `queue.Add`, in
order, and the message of the panic that ended it, if one did. -/
structure CallbackResult where
  pushes : List informerevent
  panic : Option String
deriving DecidableEq, Repr

/-! ## The work queue -/

/-- A value stored in the work queue (Go type `interface{}`): the callbacks add
`informerevent` values, the retry path of `processNextItem` adds a bare string. -/
inductive QueueItem where
  | event (e : informerevent)
  | key (k : String)
deriving DecidableEq, Repr

/-- The key a queue item is about. -/
def QueueItem.itemKey : QueueItem → String
  | .event e => e.key
  | .key k => k

/-- State of the rate-limiting work queue of client-go, as far as the controller
observes it: the pending items in arrival order (a set: `Add` drops an item
equal to a pending one), the shutdown flag, and the per-key failure counter of
the rate limiter. -/
structure WorkQueue where
  queue : List QueueItem
  shuttingDown : Bool
  failures : String → Nat

/-- The queue of a fresh controller. -/
def WorkQueue.empty : WorkQueue :=
  { queue := [], shuttingDown := false, failures := fun _ => 0 }

/-- Queue operation `Add`: ignored while shutting down or when an equal item is
pending, otherwise the item is appended. -/
def WorkQueue.Add (q : WorkQueue) (item : QueueItem) : WorkQueue :=
  if q.shuttingDown then q
  else if item ∈ q.queue then q
  else { q with queue := q.queue ++ [item] }

/-- Replays the pushes of a callback on the queue. -/
def WorkQueue.AddAll (q : WorkQueue) (pushes : List informerevent) : WorkQueue :=
  pushes.foldl (fun acc e => acc.Add (.event e)) q

/-- Rate limiter query `NumRequeues`. -/
def WorkQueue.NumRequeues (q : WorkQueue) (k : String) : Nat :=
  q.failures k

/-- Rate limiter reset `Forget`. -/
def WorkQueue.Forget (q : WorkQueue) (k : String) : WorkQueue :=
  { q with failures := fun x => if x = k then 0 else q.failures x }

/-- Queue operation `AddRateLimited`: counts one more failure for the key and
adds the value it was given (the back-off delay is not modelled). -/
def WorkQueue.AddRateLimited (q : WorkQueue) (k : String) : WorkQueue :=
  { q with failures := fun x => if x = k then q.failures k + 1 else q.failures x }.Add (.key k)

/-- Result of `queue.Get`. -/
inductive GetResult where
  | blocked
  | quit
  | item (x : QueueItem) (rest : WorkQueue)

/-- Queue operation `Get`: the oldest pending item; with nothing pending it
reports shutdown when the queue is shutting down and waits otherwise. -/
def WorkQueue.Get (q : WorkQueue) : GetResult :=
  match q.queue with
  | [] => if q.shuttingDown then .quit else .blocked
  | x :: rest => .item x { q with queue := rest }

/-! ## Callbacks of the SelectiveDeployment informer -/

/-- The SelectiveDeployment `AddFunc`: pushes `(key, create)` when the key can be
derived, nothing otherwise. -/
def sdAddFunc (obj : Obj) : CallbackResult :=
  match MetaNamespaceKeyFunc obj with
  | .ok k => ⟨[⟨k, create⟩], none⟩
  | .error _ => ⟨[], none⟩

/-- The SelectiveDeployment `UpdateFunc`: both arguments are asserted to be
SelectiveDeployments; when their statuses are deeply equal it pushes
`(key of the new object, update)`. -/
def sdUpdateFunc (oldObj newObj : Obj) : CallbackResult :=
  match oldObj, newObj with
  | .SelectiveDeployment o, .SelectiveDeployment n =>
    if DeepEqual o.Status n.Status = true then
      match MetaNamespaceKeyFunc newObj with
      | .ok k => ⟨[⟨k, update⟩], none⟩
      | .error _ => ⟨[], none⟩
    else ⟨[], none⟩
  | _, _ => ⟨[], some "interface conversion"⟩

/-- The SelectiveDeployment `DeleteFunc`: pushes `(key, delete)` when the
deletion-handling key function yields a key. -/
def sdDeleteFunc (obj : Obj) : CallbackResult :=
  match DeletionHandlingMetaNamespaceKeyFunc obj with
  | .ok k => ⟨[⟨k, delete⟩], none⟩
  | .error _ => ⟨[], none⟩

/-! ## Callbacks of the node informer -/

/-- The inner loop over `sdRow.Status.Message` that computes `fewerNodes`. -/
def fewerNodes (messages : List String) : Bool :=
  messages.foldl
    (fun acc message => if stringsContains message "Fewer nodes issue" then true else acc) false

/-- The loop labelled `selectorLoop`: the first selector with quantity zero, or
with a non-zero quantity while `fewerNodes` holds, pushes the SelectiveDeployment
for update (when its key can be derived) and ends the loop. -/
def selectorLoop (sdRow : SelectiveDeployment) : List Selector → List informerevent
  | [] => []
  | selectorDet :: rest =>
    if selectorDet.Quantity = 0 ∨ (selectorDet.Quantity ≠ 0 ∧ fewerNodes sdRow.Status.Message = true) then
      match MetaNamespaceKeyFunc (.SelectiveDeployment sdRow) with
      | .ok k => [⟨k, update⟩]
      | .error _ => []
    else selectorLoop sdRow rest

/-- The body of the loop over `sdRaw.Items` for one row: recovery must be on and
the state must be partial or failure before the selectors are scanned. -/
def recoveryScanRow (sdRow : SelectiveDeployment) : List informerevent :=
  if sdRow.Spec.Recovery = true then
    if sdRow.Status.State = partialState ∨ sdRow.Status.State = failure then
      selectorLoop sdRow sdRow.Spec.Selector
    else []
  else []

/-- The loop over `sdRaw.Items`, shared by the node `AddFunc` and the first
branch of the node `UpdateFunc`. -/
def recoveryScan : List SelectiveDeployment → List informerevent
  | [] => []
  | sdRow :: rest => recoveryScanRow sdRow ++ recoveryScan rest

/-- The loop of the node `AddFunc` over `nodeObj.Status.Conditions`: every row of
type Ready with status True derives the key of the node (panicking on failure)
and runs the recovery scan. -/
def nodeAddConditions (c : Cluster) (obj : Obj) : List NodeCondition → CallbackResult
  | [] => ⟨[], none⟩
  | conditionRow :: rest =>
    if conditionRow.Type_ = "Ready" then
      if conditionRow.Status = trueStr then
        match MetaNamespaceKeyFunc obj with
        | .error err => ⟨[], some err⟩
        | .ok _ =>
          let r := nodeAddConditions c obj rest
          ⟨recoveryScan c.sdList ++ r.pushes, r.panic⟩
      else nodeAddConditions c obj rest
    else nodeAddConditions c obj rest

/-- The node `AddFunc`. -/
def nodeAddFunc (c : Cluster) (obj : Obj) : CallbackResult :=
  match obj with
  | .Node nodeObj => nodeAddConditions c obj nodeObj.Status.Conditions
  | _ => ⟨[], some "interface conversion"⟩

/-- The loop over `ownerList` in the node `UpdateFunc` and `DeleteFunc`: an owner
whose SelectiveDeployment cannot be fetched is skipped, one with recovery on is
pushed for update (when its key can be derived). -/
def ownerLoop (c : Cluster) : List (String × String) → List informerevent
  | [] => []
  | ownerDet :: rest =>
    match c.getSD ownerDet.1 ownerDet.2 with
    | none => ownerLoop c rest
    | some sdObj =>
      if sdObj.Spec.Recovery = true then
        (match MetaNamespaceKeyFunc (.SelectiveDeployment sdObj) with
          | .ok k => [⟨k, update⟩]
          | .error _ => []) ++ ownerLoop c rest
      else ownerLoop c rest

/-- The condition of the first branch of the node `UpdateFunc`. -/
def supplyCondition (oldReady newReady : String) (oldObj newObj : Node) : Prop :=
  (oldReady = falseStr ∧ newReady = trueStr) ∨
  (oldReady = unknownStr ∧ newReady = trueStr) ∨
  (oldObj.Spec.Unschedulable = true ∧ newObj.Spec.Unschedulable = false)

instance (oldReady newReady : String) (oldObj newObj : Node) :
    Decidable (supplyCondition oldReady newReady oldObj newObj) := by
  unfold supplyCondition; infer_instance

/-- The condition of the `else if` branch of the node `UpdateFunc`. -/
def demandCondition (oldReady newReady : String) (oldObj newObj : Node) (updated : Bool) : Prop :=
  (oldReady = trueStr ∧ newReady = falseStr) ∨
  (oldReady = trueStr ∧ newReady = unknownStr) ∨
  (oldObj.Spec.Unschedulable = false ∧ newObj.Spec.Unschedulable = true) ∨
  (newObj.Spec.Unschedulable = false ∧ newReady = trueStr ∧ updated = true)

instance (oldReady newReady : String) (oldObj newObj : Node) (updated : Bool) :
    Decidable (demandCondition oldReady newReady oldObj newObj updated) := by
  unfold demandCondition; infer_instance

/-- The node `UpdateFunc`. -/
def nodeUpdateFunc (c : Cluster) (old new : Obj) : CallbackResult :=
  match old, new with
  | .Node oldObj, .Node newObj =>
    let oldReady := c.GetConditionReadyStatus oldObj
    let newReady := c.GetConditionReadyStatus newObj
    if supplyCondition oldReady newReady oldObj newObj then
      match MetaNamespaceKeyFunc new with
      | .error err => ⟨[], some err⟩
      | .ok _ => ⟨recoveryScan c.sdList, none⟩
    else
      let updated := c.CompareIPAddresses oldObj newObj
      if demandCondition oldReady newReady oldObj newObj updated then
        match MetaNamespaceKeyFunc new with
        | .error err => ⟨[], some err⟩
        | .ok _ =>
          let found := c.getByNode newObj.ObjectMeta.Name
          if found.2 = true then ⟨ownerLoop c found.1, none⟩ else ⟨[], none⟩
      else ⟨[], none⟩
  | _, _ => ⟨[], some "interface conversion"⟩

/-- The node `DeleteFunc`. -/
def nodeDeleteFunc (c : Cluster) (obj : Obj) : CallbackResult :=
  match obj with
  | .Node nodeObj =>
    match MetaNamespaceKeyFunc obj with
    | .error err => ⟨[], some err⟩
    | .ok _ =>
      let found := c.getByNode nodeObj.ObjectMeta.Name
      if found.2 = true then ⟨ownerLoop c found.1, none⟩ else ⟨[], none⟩
  | _ => ⟨[], some "interface conversion"⟩

/-! ## Callbacks of the workload informers -/

/-- The closure `addToQueue`: pushes `(key of ownerSD, update)` when the key can
be derived.  Its other two arguments only feed the log line. -/
def addToQueue (ownerSD : SelectiveDeployment) : List informerevent :=
  match MetaNamespaceKeyFunc (.SelectiveDeployment ownerSD) with
  | .ok k => [⟨k, update⟩]
  | .error _ => []

/-- The loop of `workloadAddFunc` over the owner references, returning
`(underControl, sdName)`; both start at their zero values `false` and `""`. -/
def ownerReferenceScan (ownerReferences : List OwnerReference) : Bool × String :=
  ownerReferences.foldl
    (fun st reference =>
      if reference.Kind = "SelectiveDeployment" then (true, reference.Name) else st)
    (false, "")

/-- One case of the type switch of `workloadAddFunc` (the five cases differ only
in the word they log). -/
def workloadAddCase (c : Cluster) (workloadObj : Workload) : CallbackResult :=
  let st := ownerReferenceScan workloadObj.ObjectMeta.OwnerReferences
  let underControl := st.1
  let sdName := st.2
  if underControl = false then
    match c.getSD workloadObj.ObjectMeta.Namespace sdName with
    | some ownerSD => ⟨addToQueue ownerSD, none⟩
    | none => ⟨[], none⟩
  else ⟨[], none⟩

/-- The closure `workloadAddFunc`: a type switch without default case. -/
def workloadAddFunc (c : Cluster) (obj : Obj) : CallbackResult :=
  match obj with
  | .Deployment workloadObj => workloadAddCase c workloadObj
  | .DaemonSet workloadObj => workloadAddCase c workloadObj
  | .StatefulSet workloadObj => workloadAddCase c workloadObj
  | .Job workloadObj => workloadAddCase c workloadObj
  | .CronJob workloadObj => workloadAddCase c workloadObj
  | _ => ⟨[], none⟩

/-- The loop of `workloadDeleteFunc` over the owner references of a workload in
namespace `ns`. -/
def deleteReferenceLoop (c : Cluster) (ns : String) : List OwnerReference → List informerevent
  | [] => []
  | reference :: rest =>
    if reference.Kind = "SelectiveDeployment" then
      match c.getSD ns reference.Name with
      | some ownerSD => addToQueue ownerSD ++ deleteReferenceLoop c ns rest
      | none => deleteReferenceLoop c ns rest
    else deleteReferenceLoop c ns rest

/-- One case of the type switch of `workloadDeleteFunc`. -/
def workloadDeleteCase (c : Cluster) (workloadObj : Workload) : CallbackResult :=
  ⟨deleteReferenceLoop c workloadObj.ObjectMeta.Namespace workloadObj.ObjectMeta.OwnerReferences, none⟩

/-- The closure `workloadDeleteFunc`: a type switch without default case. -/
def workloadDeleteFunc (c : Cluster) (obj : Obj) : CallbackResult :=
  match obj with
  | .Deployment workloadObj => workloadDeleteCase c workloadObj
  | .DaemonSet workloadObj => workloadDeleteCase c workloadObj
  | .StatefulSet workloadObj => workloadDeleteCase c workloadObj
  | .Job workloadObj => workloadDeleteCase c workloadObj
  | .CronJob workloadObj => workloadDeleteCase c workloadObj
  | _ => ⟨[], none⟩

/-! ## The worker step -/

/-- Result of `GetIndexer().GetByKey(key)`: `(item, exists, err)`; the field
`exists_` is the result named `exists`. -/
structure LookupResult where
  item : Option SelectiveDeployment
  exists_ : Bool
  err : Option String
deriving DecidableEq, Repr

/-- The calls `processNextItem` makes on the queue, the error reporter and the
handler, recorded in call order. -/
inductive Call where
  | AddRateLimited (k : String)
  | Forget (k : String)
  | HandleError (err : String)
  | ObjectCreated (obj : Option SelectiveDeployment)
  | ObjectUpdated (obj : Option SelectiveDeployment)
  | ObjectDeleted (obj : Option SelectiveDeployment)
  | Done (item : QueueItem)
deriving DecidableEq, Repr

/-- Whether a recorded call is a handler method. -/
def Call.isHandler : Call → Bool
  | .ObjectCreated _ => true
  | .ObjectUpdated _ => true
  | .ObjectDeleted _ => true
  | _ => false

/-- How one call of `processNextItem` ends. -/
inductive Outcome where
  | blocked
  | returned (b : Bool)
  | panicked (msg : String)
deriving DecidableEq, Repr

/-- One call of `processNextItem`: how it ended, the queue it leaves and the
calls it made. -/
structure StepResult where
  outcome : Outcome
  queue : WorkQueue
  calls : List Call

/-- The error branch of `processNextItem` (taken when `err != nil`): fewer than
five recorded requeues retry with `AddRateLimited(key)`, otherwise the key is
forgotten and the error reported. -/
def lookupErrorBranch (q : WorkQueue) (k : String) (err : Option String) : WorkQueue × List Call :=
  match err with
  | none => (q, [])
  | some e =>
    if q.NumRequeues k < 5 then (q.AddRateLimited k, [.AddRateLimited k])
    else (q.Forget k, [.Forget k, .HandleError e])

/-- The dispatch of `processNextItem` on `exists` and the queued function. -/
def dispatch (r : LookupResult) (function : String) : List Call :=
  if r.exists_ = false then
    if function = delete then [.ObjectDeleted r.item] else []
  else
    if function = create then [.ObjectCreated r.item]
    else if function = update then [.ObjectUpdated r.item]
    else []

/-- The method `processNextItem`.  `GetByKey` is the lookup of the
SelectiveDeployment cache.  A popped value that is not an `informerevent` fails
the type assertion `event.(informerevent)`; the deferred `Done` still runs. -/
def processNextItem (GetByKey : String → LookupResult) (q : WorkQueue) : StepResult :=
  match q.Get with
  | .blocked => ⟨.blocked, q, []⟩
  | .quit => ⟨.returned false, q, []⟩
  | .item event q1 =>
    match event with
    | .key _ => ⟨.panicked "interface conversion", q1, [.Done event]⟩
    | .event e =>
      let keyRaw := e.key
      let r := GetByKey keyRaw
      let afterErr := lookupErrorBranch q1 e.key r.err
      let handlerCalls := dispatch r e.function
      ⟨.returned true, afterErr.1.Forget e.key,
        afterErr.2 ++ handlerCalls ++ [.Forget e.key, .Done event]⟩

/-- Runs `processNextItem` up to `n` times, as `runWorker` does, stopping at the
first call that does not return `true`; yields the last outcome, the final queue
and all calls made. -/
def runWorkerSteps (GetByKey : String → LookupResult) : Nat → WorkQueue → StepResult
  | 0, q => ⟨.returned true, q, []⟩
  | n + 1, q =>
    let s := processNextItem GetByKey q
    match s.outcome with
    | .returned true =>
      let t := runWorkerSteps GetByKey n s.queue
      ⟨t.outcome, t.queue, s.calls ++ t.calls⟩
    | _ => s

/-! ## Sample values used to instantiate the theorems -/

/-- Modelled from the spec: the helper `GetConditionReadyStatus` of package
`node`, which is not part of the source file; the readiness condition of a node
is the status of its first condition of type Ready, and the empty string when
it has none. -/
def readyStatus (n : Node) : String :=
  match n.Status.Conditions.find? (fun row => row.Type_ = "Ready") with
  | some row => row.Status
  | none => ""

/-- Modelled from the spec: the helper `CompareIPAddresses` of package `node`,
which is not part of the source file; it reports whether the IP addresses of
the node changed. -/
def addressesChanged (oldObj newObj : Node) : Bool :=
  decide (oldObj.Status.Addresses ≠ newObj.Status.Addresses)

/-- A node named `name` with the given Ready status and schedulability flag. -/
def sampleNode (name ready : String) (unschedulable : Bool) : Node :=
  { ObjectMeta := { Name := name, Namespace := "", OwnerReferences := [] },
    Spec := { Unschedulable := unschedulable },
    Status := { Conditions := [{ Type_ := "Ready", Status := ready }], Addresses := [] } }

/-- A SelectiveDeployment `ns/name` with the given recovery flag, state,
messages and selector quantities. -/
def sampleSD (ns name : String) (recovery : Bool) (state : String) (messages : List String)
    (quantities : List Int) : SelectiveDeployment :=
  { ObjectMeta := { Name := name, Namespace := ns, OwnerReferences := [] },
    Spec := { Selector := quantities.map (fun n => { Quantity := n }), Recovery := recovery },
    Status := { Ready := "", State := state, MessageSlice := some messages } }

/-- Sample SelectiveDeployment `ns1/sd1`: recovery on, partial, under-satisfied
selector of quantity 3. -/
def sd1 : SelectiveDeployment :=
  sampleSD "ns1" "sd1" true partialState
    ["Fewer nodes issue, 1 node(s) found instead of 3 for city Paris"] [3]

/-- Sample SelectiveDeployment `ns1/sd2`: recovery on, success, no sentinel message. -/
def sd2 : SelectiveDeployment :=
  sampleSD "ns1" "sd2" true success
    ["The selective deployment smoothly created the workload(s)"] [3]

/-- Sample SelectiveDeployment `ns2/sd3`: recovery off. -/
def sd3 : SelectiveDeployment :=
  sampleSD "ns2" "sd3" false success [] [0]

/-- A lookup table of SelectiveDeployments read as the `Get` call of the API:
the first listed object with that namespace and name. -/
def getFrom (l : List SelectiveDeployment) (ns name : String) : Option SelectiveDeployment :=
  l.find? (fun sd => sd.ObjectMeta.Namespace = ns ∧ sd.ObjectMeta.Name = name)

/-- Sample cluster: the three sample SelectiveDeployments, and an ownership
index in which node `n1` is owned by `ns1/sd1`, `ns1/sd2`, `ns2/sd3` and a
vanished `ns9/gone`. -/
def sampleCluster : Cluster :=
  { sdList := [sd1, sd2, sd3],
    getSD := getFrom [sd1, sd2, sd3],
    GetConditionReadyStatus := readyStatus,
    CompareIPAddresses := addressesChanged,
    getByNode := fun name =>
      if name = "n1" then
        ([("ns1", "sd1"), ("ns1", "sd2"), ("ns2", "sd3"), ("ns9", "gone")], true)
      else ([], false) }

/-- Whether a recorded call is `Done`. -/
def Call.isDone : Call → Bool
  | .Done _ => true
  | _ => false

/-- An event of the SelectiveDeployment informer, as far as adds and updates go. -/
inductive SDEvent where
  | add (obj : Obj)
  | update (oldObj newObj : Obj)

/-- The pushes of the callback that serves an event. -/
def SDEvent.pushes : SDEvent → List informerevent
  | .add obj => (sdAddFunc obj).pushes
  | .update oldObj newObj => (sdUpdateFunc oldObj newObj).pushes

/-- A burst of events served one after the other with no pop in between. -/
def sdBurst (q : WorkQueue) (events : List SDEvent) : WorkQueue :=
  events.foldl (fun acc ev => acc.AddAll ev.pushes) q

/-- The pending items of the queue that are about key `k`. -/
def WorkQueue.pendingFor (q : WorkQueue) (k : String) : List QueueItem :=
  q.queue.filter (fun item => item.itemKey = k)

/-- A cache lookup that returns an error for every key. -/
def lookupFails : String → LookupResult :=
  fun _ => { item := none, exists_ := false, err := some "lookup failed" }

/-- A cache lookup over a list of stored objects that never errors. -/
def lookupIn (l : List SelectiveDeployment) : String → LookupResult :=
  fun k =>
    match l.find? (fun sd => sdKey sd = k) with
    | some sd => { item := some sd, exists_ := true, err := none }
    | none => { item := none, exists_ := false, err := none }

/-- The queue of a fresh controller after the add event of `ns1/sd1`. -/
def queueAfterAdd : WorkQueue :=
  WorkQueue.empty.AddAll (sdAddFunc (.SelectiveDeployment sd1)).pushes

/-- A queue holding the three operations on `ns1/sd1`. -/
def queueThree : WorkQueue :=
  { WorkQueue.empty with
    queue := [.event ⟨"ns1/sd1", create⟩, .event ⟨"ns1/sd1", update⟩, .event ⟨"ns1/sd1", delete⟩] }

/-- An empty queue that is shutting down. -/
def queueClosed : WorkQueue :=
  { WorkQueue.empty with shuttingDown := true }

/-- Sample Deployment `ns1/d1` without owner references. -/
def d1 : Workload :=
  { ObjectMeta := { Name := "d1", Namespace := "ns1", OwnerReferences := [] } }

/-- Sample cluster in which a SelectiveDeployment named `d1` exists in `ns1`. -/
def orphanCluster : Cluster :=
  { sampleCluster with
    sdList := [sampleSD "ns1" "d1" true success [] [0]],
    getSD := getFrom [sampleSD "ns1" "d1" true success [] [0]] }

/-- The seven informers held by the controller struct, under their field names. -/
inductive Informer where
  | informer
  | nodeInformer
  | deploymentInformer
  | daemonSetInformer
  | statefulSetInformer
  | jobInformer
  | cronJobInformer
deriving DecidableEq, Repr

/-- The steps `controller.run` performs, in program order: the call of
`handler.Init`, each `go ...Run(stopCh)` statement, the call of
`cache.WaitForCacheSync` with the informers whose `HasSynced` it is given, the
error report, the `go wait.Until(c.runWorker, ...)` statement, the wait on the
stop channel and the deferred `queue.ShutDown`. -/
inductive RunStep where
  | Init
  | Run (i : Informer)
  | WaitForCacheSync (waited : List Informer)
  | HandleError (msg : String)
  | runWorker
  | waitStop
  | ShutDown
deriving DecidableEq, Repr

/-- The informers whose `HasSynced` is passed to `cache.WaitForCacheSync`. -/
def waitedInformers : List Informer :=
  [.informer, .nodeInformer, .deploymentInformer, .daemonSetInformer, .statefulSetInformer]

/-- The method `controller.run`.  `HasSynced i` tells whether informer `i`
reports its initial sync before the stop channel closes; `WaitForCacheSync`
succeeds when every informer it is given does. -/
def run (HasSynced : Informer → Bool) : List RunStep :=
  [.Init, .Run .informer, .Run .nodeInformer, .Run .deploymentInformer,
    .Run .daemonSetInformer, .Run .statefulSetInformer, .WaitForCacheSync waitedInformers] ++
  (if waitedInformers.all HasSynced = false then
      [.HandleError "Error syncing cache", .ShutDown]
    else [.runWorker, .waitStop, .ShutDown])

/-- A sync report in which exactly the informers that `run` starts sync. -/
def startedSync : Informer → Bool :=
  fun i => decide (i ≠ .jobInformer ∧ i ≠ .cronJobInformer)

/-! ## More sample values -/

/-- Sample node `n1` with no condition of type Ready with status True. -/
def nodeNotReady : Node :=
  { ObjectMeta := { Name := "n1", Namespace := "", OwnerReferences := [] },
    Spec := { Unschedulable := false },
    Status :=
      { Conditions := [{ Type_ := "MemoryPressure", Status := "True" },
          { Type_ := "Ready", Status := "Unknown" }],
        Addresses := [] } }

/-- Sample Deployment `ns1/web2` whose only owner reference names a
SelectiveDeployment that is gone. -/
def danglingDeployment : Workload :=
  { ObjectMeta :=
    { Name := "web2", Namespace := "ns1",
      OwnerReferences := [{ Kind := "SelectiveDeployment", Name := "gone" }] } }

/-- Sample cluster in which every `Get` succeeds except for the name `gone`. -/
def generousCluster : Cluster :=
  { sampleCluster with getSD := fun _ name => if name = "gone" then none else some sd1 }

/-- Sample SelectiveDeployment `ns1/sd4`: recovery on, failure, two selectors
that both qualify (quantity 0 and quantity 2 under the sentinel). -/
def sd4 : SelectiveDeployment :=
  sampleSD "ns1" "sd4" true failure
    ["Fewer nodes issue, 0 node(s) found instead of 2 for city Lyon"] [0, 2]

/-- Sample SelectiveDeployment `ns1/sd5`: recovery on, failure, no selector. -/
def sd5 : SelectiveDeployment :=
  sampleSD "ns1" "sd5" true failure ["Fewer nodes issue"] []

/-- Sample cluster listing `sd1`, `sd2`, `sd4` and `sd5`. -/
def scanCluster : Cluster :=
  { sampleCluster with sdList := [sd1, sd2, sd4, sd5] }

/-- Sample SelectiveDeployment `ns1/neg`: recovery on, partial, the sentinel
message, and one selector of quantity -1. -/
def sdNeg : SelectiveDeployment :=
  sampleSD "ns1" "neg" true partialState ["Fewer nodes issue"] [-1]

/-- Sample cluster listing only `sdNeg`. -/
def negCluster : Cluster :=
  { sampleCluster with sdList := [sdNeg] }

/-- Sample Deployment `ns1/twin` with two owner references of kind
SelectiveDeployment, both naming existing objects. -/
def twinDeployment : Workload :=
  { ObjectMeta :=
    { Name := "twin", Namespace := "ns1",
      OwnerReferences :=
        [{ Kind := "SelectiveDeployment", Name := "sd1" },
          { Kind := "SelectiveDeployment", Name := "sd2" }] } }

/-- Sample cluster in which every `Get` succeeds. -/
def openCluster : Cluster :=
  { sampleCluster with getSD := fun _ _ => some sd1 }

/-- A queue holding the delete item of `ns1/sd1`. -/
def queueDelete : WorkQueue :=
  { WorkQueue.empty with queue := [.event ⟨"ns1/sd1", delete⟩] }

/-- Sample SelectiveDeployment `ns2/sd3` as `sd3`, but with a nil `Message`
slice where `sd3` has an empty one. -/
def sd3Nil : SelectiveDeployment :=
  { sd3 with Status := { sd3.Status with MessageSlice := none } }

/-- Sample SelectiveDeployment `ns2/sd3` as `sd3`, but with another `Ready` field. -/
def sd3Ready : SelectiveDeployment :=
  { sd3 with Status := { sd3.Status with Ready := "1/1" } }

/-! ## Lemmas on the key functions and the recovery scan -/

theorem metaKey_sd (sd : SelectiveDeployment) :
    MetaNamespaceKeyFunc (.SelectiveDeployment sd) = .ok (sdKey sd) := rfl

theorem metaKey_node (n : Node) :
    MetaNamespaceKeyFunc (.Node n) = .ok (namespaceKey n.ObjectMeta) := rfl

theorem addToQueue_eq (sd : SelectiveDeployment) :
    addToQueue sd = [⟨sdKey sd, update⟩] := rfl

theorem fewerNodes_foldl (messages : List String) (acc : Bool) :
    messages.foldl
      (fun acc message => if stringsContains message "Fewer nodes issue" then true else acc) acc
      = (acc || messages.any (fun m => stringsContains m "Fewer nodes issue")) := by
  induction messages generalizing acc with
  | nil => simp
  | cons m rest ih =>
    simp only [List.foldl_cons, List.any_cons, ih]
    cases stringsContains m "Fewer nodes issue" <;> cases acc <;> simp

theorem fewerNodes_eq_any (messages : List String) :
    fewerNodes messages = messages.any (fun m => stringsContains m "Fewer nodes issue") := by
  unfold fewerNodes
  rw [fewerNodes_foldl]
  simp

theorem fewerNodes_of_mem (messages : List String) (m : String) (hm : m ∈ messages)
    (hc : stringsContains m "Fewer nodes issue" = true) : fewerNodes messages = true := by
  rw [fewerNodes_eq_any, List.any_eq_true]
  exact ⟨m, hm, hc⟩

theorem selectorLoop_of_fewerNodes (sd : SelectiveDeployment) (sel : Selector)
    (rest : List Selector) (h : fewerNodes sd.Status.Message = true) :
    selectorLoop sd (sel :: rest) = [⟨sdKey sd, update⟩] := by
  have hq : sel.Quantity = 0 ∨ (sel.Quantity ≠ 0 ∧ fewerNodes sd.Status.Message = true) := by
    by_cases h0 : sel.Quantity = 0
    · exact Or.inl h0
    · exact Or.inr ⟨h0, h⟩
  simp only [selectorLoop, if_pos hq, metaKey_sd]

theorem selectorLoop_sub (sd : SelectiveDeployment) (sels : List Selector) :
    ∀ e ∈ selectorLoop sd sels, e = ⟨sdKey sd, update⟩ := by
  induction sels with
  | nil => intro e he; simp [selectorLoop] at he
  | cons sel rest ih =>
    intro e he
    unfold selectorLoop at he
    split at he
    · simpa [metaKey_sd] using he
    · exact ih e he

theorem recoveryScanRow_sub (sd : SelectiveDeployment) :
    ∀ e ∈ recoveryScanRow sd, e = ⟨sdKey sd, update⟩ := by
  intro e he
  unfold recoveryScanRow at he
  split at he
  · split at he
    · exact selectorLoop_sub sd _ e he
    · simp at he
  · simp at he

theorem recoveryScanRow_success (sd : SelectiveDeployment) (h : sd.Status.State = success) :
    recoveryScanRow sd = [] := by
  have h1 : ¬ (sd.Status.State = partialState ∨ sd.Status.State = failure) := by
    rw [h]; decide
  unfold recoveryScanRow
  rw [if_neg h1]
  split <;> rfl

theorem recoveryScan_append (a b : List SelectiveDeployment) :
    recoveryScan (a ++ b) = recoveryScan a ++ recoveryScan b := by
  induction a with
  | nil => simp [recoveryScan]
  | cons x rest ih => simp [recoveryScan, ih]

theorem mem_recoveryScan {l : List SelectiveDeployment} {e : informerevent} :
    e ∈ recoveryScan l ↔ ∃ sd ∈ l, e ∈ recoveryScanRow sd := by
  induction l with
  | nil => simp [recoveryScan]
  | cons x rest ih => simp [recoveryScan, ih]

theorem nodeUpdateFunc_supply (c : Cluster) (oldObj newObj : Node)
    (h : supplyCondition (c.GetConditionReadyStatus oldObj) (c.GetConditionReadyStatus newObj)
      oldObj newObj) :
    nodeUpdateFunc c (.Node oldObj) (.Node newObj) = ⟨recoveryScan c.sdList, none⟩ := by
  simp only [nodeUpdateFunc, if_pos h, metaKey_node]

/-! ## Recovery gating on a node update -/

/-- C1, recovery gating in the node UpdateFunc.  For every node update whose
Ready status goes from False to True the callback ends without panic, and:
every listed SelectiveDeployment with recovery on, state Partial, a status
message containing "Fewer nodes issue" and a selector of positive quantity has
the item (its namespace/name key, update) among the pushes; a listed
SelectiveDeployment whose state is Success and whose messages do not contain
the sentinel contributes no push: the pushes are those of the same update with
that object absent from the listing, and when no other listed object shares its
key, no pushed item carries its key. -/
theorem recovery_gating (c : Cluster) (oldObj newObj : Node)
    (hOld : c.GetConditionReadyStatus oldObj = falseStr)
    (hNew : c.GetConditionReadyStatus newObj = trueStr) :
    (nodeUpdateFunc c (.Node oldObj) (.Node newObj)).panic = none ∧
    (∀ sd ∈ c.sdList, sd.Spec.Recovery = true → sd.Status.State = partialState →
      (∃ m ∈ sd.Status.Message, stringsContains m "Fewer nodes issue" = true) →
      (∃ sel ∈ sd.Spec.Selector, 0 < sel.Quantity) →
      (⟨sdKey sd, update⟩ : informerevent) ∈
        (nodeUpdateFunc c (.Node oldObj) (.Node newObj)).pushes) ∧
    (∀ pre sd post, c.sdList = pre ++ sd :: post → sd.Status.State = success →
      (∀ m ∈ sd.Status.Message, stringsContains m "Fewer nodes issue" = false) →
      (nodeUpdateFunc c (.Node oldObj) (.Node newObj)).pushes =
          (nodeUpdateFunc { c with sdList := pre ++ post } (.Node oldObj) (.Node newObj)).pushes ∧
        ((∀ other ∈ pre ++ post, sdKey other ≠ sdKey sd) →
          ∀ e ∈ (nodeUpdateFunc c (.Node oldObj) (.Node newObj)).pushes, e.key ≠ sdKey sd)) := by
  have hs : supplyCondition (c.GetConditionReadyStatus oldObj) (c.GetConditionReadyStatus newObj)
      oldObj newObj := Or.inl ⟨hOld, hNew⟩
  rw [nodeUpdateFunc_supply c oldObj newObj hs]
  refine ⟨rfl, ?_, ?_⟩
  · intro sd hsd hrec hstate hmsg hsel
    obtain ⟨m, hm, hc⟩ := hmsg
    obtain ⟨sel, hselmem, _⟩ := hsel
    have hf : fewerNodes sd.Status.Message = true := fewerNodes_of_mem _ m hm hc
    show _ ∈ recoveryScan c.sdList
    rw [mem_recoveryScan]
    refine ⟨sd, hsd, ?_⟩
    unfold recoveryScanRow
    rw [if_pos hrec, if_pos (Or.inl hstate)]
    cases hl : sd.Spec.Selector with
    | nil => rw [hl] at hselmem; simp at hselmem
    | cons s0 rest => rw [selectorLoop_of_fewerNodes sd s0 rest hf]; simp
  · intro pre sd post hlist hstate _
    have hs2 : supplyCondition
        (({ c with sdList := pre ++ post } : Cluster).GetConditionReadyStatus oldObj)
        (({ c with sdList := pre ++ post } : Cluster).GetConditionReadyStatus newObj)
        oldObj newObj := Or.inl ⟨hOld, hNew⟩
    rw [nodeUpdateFunc_supply _ oldObj newObj hs2]
    have hscan : recoveryScan c.sdList = recoveryScan (pre ++ post) := by
      rw [hlist, recoveryScan_append, recoveryScan_append]
      simp [recoveryScan, recoveryScanRow_success sd hstate]
    refine ⟨hscan, ?_⟩
    intro hkeys e he
    change e ∈ recoveryScan c.sdList at he
    rw [hscan, mem_recoveryScan] at he
    obtain ⟨other, hmem, hrow⟩ := he
    rw [recoveryScanRow_sub other e hrow]
    exact hkeys other hmem

theorem recovery_gating_witness :
    sampleCluster.GetConditionReadyStatus (sampleNode "n1" "False" false) = falseStr ∧
    sampleCluster.GetConditionReadyStatus (sampleNode "n1" "True" false) = trueStr ∧
    (⟨"ns1/sd1", update⟩ : informerevent) ∈
      (nodeUpdateFunc sampleCluster (.Node (sampleNode "n1" "False" false))
        (.Node (sampleNode "n1" "True" false))).pushes ∧
    (∀ e ∈ (nodeUpdateFunc sampleCluster (.Node (sampleNode "n1" "False" false))
        (.Node (sampleNode "n1" "True" false))).pushes, e.key ≠ "ns1/sd2") :=
  have h := recovery_gating sampleCluster (sampleNode "n1" "False" false)
    (sampleNode "n1" "True" false) (by decide) (by decide)
  ⟨by decide, by decide,
    h.2.1 sd1 (by decide) (by decide) (by decide) ⟨_, List.mem_singleton.mpr rfl, by decide⟩
      ⟨⟨3⟩, by decide, by decide⟩,
    (h.2.2 [sd1] sd2 [sd3] rfl (by decide) (by decide)).2 (by decide)⟩

/-! ## The worker step -/

theorem processNextItem_event (GetByKey : String → LookupResult) (q : WorkQueue)
    (e : informerevent) (rest : List QueueItem) (hq : q.queue = .event e :: rest) :
    processNextItem GetByKey q =
      ⟨.returned true,
        (lookupErrorBranch { q with queue := rest } e.key (GetByKey e.key).err).1.Forget e.key,
        (lookupErrorBranch { q with queue := rest } e.key (GetByKey e.key).err).2
          ++ dispatch (GetByKey e.key) e.function ++ [.Forget e.key, .Done (.event e)]⟩ := by
  simp only [processNextItem, WorkQueue.Get, hq]

theorem lookupErrorBranch_calls_not_handler (q : WorkQueue) (k : String) (err : Option String) :
    (lookupErrorBranch q k err).2.filter Call.isHandler = [] := by
  unfold lookupErrorBranch
  cases err with
  | none => rfl
  | some e => dsimp only; split <;> rfl

theorem lookupErrorBranch_calls_not_done (q : WorkQueue) (k : String) (err : Option String) :
    (lookupErrorBranch q k err).2.filter Call.isDone = [] := by
  unfold lookupErrorBranch
  cases err with
  | none => rfl
  | some e => dsimp only; split <;> rfl

theorem dispatch_not_done (r : LookupResult) (function : String) :
    (dispatch r function).filter Call.isDone = [] := by
  unfold dispatch
  repeat (first | rfl | split)

theorem dispatch_all_handler (r : LookupResult) (function : String) :
    (dispatch r function).filter Call.isHandler = dispatch r function := by
  unfold dispatch
  repeat (first | rfl | split)

theorem handlerCalls_eq_dispatch (GetByKey : String → LookupResult) (q : WorkQueue)
    (e : informerevent) (rest : List QueueItem) (hq : q.queue = .event e :: rest) :
    (processNextItem GetByKey q).calls.filter Call.isHandler
      = dispatch (GetByKey e.key) e.function := by
  rw [processNextItem_event GetByKey q e rest hq]
  simp only [List.filter_append, lookupErrorBranch_calls_not_handler, dispatch_all_handler,
    List.nil_append]
  simp [Call.isHandler]

/-- C4, the dispatch table of processNextItem.  For every popped item (key, op)
whose lookup returns no error, the handler calls of the step are exactly:
ObjectCreated(object) when the object exists and op is create;
ObjectUpdated(object) when it exists and op is update; ObjectDeleted(object)
when it does not exist and op is delete; and none at all when it exists with
delete, when it is missing with create or update, and for any other op.  In
particular a missing object with op delete yields no ObjectCreated. -/
theorem dispatch_table (GetByKey : String → LookupResult) (q : WorkQueue)
    (e : informerevent) (rest : List QueueItem) (hq : q.queue = .event e :: rest)
    (herr : (GetByKey e.key).err = none) :
    ((GetByKey e.key).exists_ = true → e.function = create →
      (processNextItem GetByKey q).calls.filter Call.isHandler
        = [.ObjectCreated (GetByKey e.key).item]) ∧
    ((GetByKey e.key).exists_ = true → e.function = update →
      (processNextItem GetByKey q).calls.filter Call.isHandler
        = [.ObjectUpdated (GetByKey e.key).item]) ∧
    ((GetByKey e.key).exists_ = false → e.function = delete →
      (processNextItem GetByKey q).calls.filter Call.isHandler
        = [.ObjectDeleted (GetByKey e.key).item] ∧
      ∀ obj, Call.ObjectCreated obj ∉ (processNextItem GetByKey q).calls) ∧
    ((GetByKey e.key).exists_ = true → e.function = delete →
      (processNextItem GetByKey q).calls.filter Call.isHandler = []) ∧
    ((GetByKey e.key).exists_ = false → (e.function = create ∨ e.function = update) →
      (processNextItem GetByKey q).calls.filter Call.isHandler = []) ∧
    (e.function ≠ create → e.function ≠ update → e.function ≠ delete →
      (processNextItem GetByKey q).calls.filter Call.isHandler = []) := by
  have hcu : create ≠ update := by decide
  have hcd : create ≠ delete := by decide
  have hud : update ≠ delete := by decide
  rw [handlerCalls_eq_dispatch GetByKey q e rest hq]
  refine ⟨?_, ?_, ?_, ?_, ?_, ?_⟩
  · intro hx hf
    simp [dispatch, hx, hf]
  · intro hx hf
    simp [dispatch, hx, hf, hcu.symm]
  · intro hx hf
    refine ⟨by simp [dispatch, hx, hf], ?_⟩
    intro obj hmem
    rw [processNextItem_event GetByKey q e rest hq] at hmem
    simp [lookupErrorBranch, herr, dispatch, hx, hf] at hmem
  · intro hx hf
    simp [dispatch, hx, hf, hcd.symm, hud.symm]
  · intro hx hf
    rcases hf with hf | hf
    · simp [dispatch, hx, hf, hcd]
    · simp [dispatch, hx, hf, hud]
  · intro h1 h2 h3
    simp [dispatch, h1, h2, h3]

theorem dispatch_table_witness :
    (processNextItem (lookupIn [sd1]) queueThree).calls.filter Call.isHandler
      = [.ObjectCreated (some sd1)] ∧
    ∀ obj, Call.ObjectCreated obj ∉
      (processNextItem (lookupIn []) { queueThree with queue := [.event ⟨"ns1/sd1", delete⟩] }).calls :=
  ⟨(dispatch_table (lookupIn [sd1]) queueThree ⟨"ns1/sd1", create⟩ _ rfl (by decide)).1
      (by decide) rfl,
    ((dispatch_table (lookupIn []) { queueThree with queue := [.event ⟨"ns1/sd1", delete⟩] }
      ⟨"ns1/sd1", delete⟩ [] rfl rfl).2.2.1 rfl rfl).2⟩

theorem lookupErrorBranch_forget (q : WorkQueue) (k : String) (err : Option String) :
    ((lookupErrorBranch q k err).1.Forget k).NumRequeues k = 0 := by
  simp [WorkQueue.Forget, WorkQueue.NumRequeues]

/-- After a step on a (key, operation) item whose lookup fails, the failure
counter of the key is back at zero: the final `Forget` undoes the count of
`AddRateLimited`. -/
theorem lookup_error_resets_counter (GetByKey : String → LookupResult) (q : WorkQueue)
    (e : informerevent) (rest : List QueueItem) (hq : q.queue = .event e :: rest) :
    (processNextItem GetByKey q).queue.NumRequeues e.key = 0 := by
  rw [processNextItem_event GetByKey q e rest hq]
  exact lookupErrorBranch_forget _ _ _

/-- What one step does hold to.  Every popped value is marked done exactly
once: the only Done call of the step is Done(item).  For every (key, operation)
item popped, whatever the lookup returns (error, missing, present) and whatever
the operation, the step returns true, calls Forget(key) and leaves the failure
counter of the key at zero.  When the queue reports shutdown the step returns
false, makes no call at all (no Done, no Forget, no handler method) and leaves
the queue as it was.  A popped bare string is not covered by the middle part. -/
theorem processNextItem_done_forget (GetByKey : String → LookupResult) (q : WorkQueue) :
    (∀ x rest, q.queue = x :: rest →
      (processNextItem GetByKey q).calls.filter Call.isDone = [.Done x]) ∧
    (∀ e rest, q.queue = .event e :: rest →
      (processNextItem GetByKey q).outcome = .returned true ∧
      (processNextItem GetByKey q).calls.filter Call.isDone = [.Done (.event e)] ∧
      Call.Forget e.key ∈ (processNextItem GetByKey q).calls ∧
      (processNextItem GetByKey q).queue.NumRequeues e.key = 0) ∧
    (q.queue = [] → q.shuttingDown = true →
      (processNextItem GetByKey q).outcome = .returned false ∧
      (processNextItem GetByKey q).calls = [] ∧
      (processNextItem GetByKey q).queue = q) := by
  have hdone : ∀ e rest, q.queue = .event e :: rest →
      (processNextItem GetByKey q).calls.filter Call.isDone = [.Done (.event e)] := by
    intro e rest hq
    rw [processNextItem_event GetByKey q e rest hq]
    simp only [List.filter_append, lookupErrorBranch_calls_not_done, dispatch_not_done,
      List.nil_append]
    simp [Call.isDone]
  refine ⟨?_, ?_, ?_⟩
  · intro x rest hq
    cases x with
    | event e => exact hdone e rest hq
    | key k => simp [processNextItem, WorkQueue.Get, hq, Call.isDone]
  · intro e rest hq
    refine ⟨?_, hdone e rest hq, ?_, lookup_error_resets_counter GetByKey q e rest hq⟩
    · rw [processNextItem_event GetByKey q e rest hq]
    · rw [processNextItem_event GetByKey q e rest hq]
      simp
  · intro hq hs
    simp [processNextItem, WorkQueue.Get, hq, hs]

theorem processNextItem_done_forget_witness :
    ((processNextItem lookupFails queueThree).outcome = .returned true ∧
      (processNextItem lookupFails queueThree).calls.filter Call.isDone
        = [.Done (.event ⟨"ns1/sd1", create⟩)] ∧
      Call.Forget "ns1/sd1" ∈ (processNextItem lookupFails queueThree).calls ∧
      (processNextItem lookupFails queueThree).queue.NumRequeues "ns1/sd1" = 0) ∧
    ((processNextItem lookupFails queueClosed).outcome = .returned false ∧
      (processNextItem lookupFails queueClosed).calls = [] ∧
      (processNextItem lookupFails queueClosed).queue = queueClosed) :=
  ⟨(processNextItem_done_forget lookupFails queueThree).2.1 ⟨"ns1/sd1", create⟩ _ rfl,
    (processNextItem_done_forget lookupFails queueClosed).2.2 rfl rfl⟩

/-- C9, done and forget on every step, evaluated where it breaks.  From the
queue of a fresh controller after the add event of ns1/sd1, a first step whose
lookup fails returns true and leaves the bare string key pending.  The next
step pops that value (the queue is not shut down) and, whether its lookup would
fail or succeed, does not return true: it panics on the type assertion before
any lookup, its only call is the deferred Done, and it never calls Forget. -/
theorem bare_key_step_panics :
    (processNextItem lookupFails queueAfterAdd).outcome = .returned true ∧
    (processNextItem lookupFails queueAfterAdd).queue.shuttingDown = false ∧
    (processNextItem lookupFails queueAfterAdd).queue.queue = [.key "ns1/sd1"] ∧
    (processNextItem lookupFails (processNextItem lookupFails queueAfterAdd).queue).outcome
      = .panicked "interface conversion" ∧
    (processNextItem lookupFails (processNextItem lookupFails queueAfterAdd).queue).calls
      = [.Done (.key "ns1/sd1")] ∧
    (processNextItem (lookupIn [sd1]) (processNextItem lookupFails queueAfterAdd).queue).outcome
      = .panicked "interface conversion" ∧
    (processNextItem (lookupIn [sd1]) (processNextItem lookupFails queueAfterAdd).queue).calls
      = [.Done (.key "ns1/sd1")] ∧
    Call.Forget "ns1/sd1" ∉
      (processNextItem (lookupIn [sd1]) (processNextItem lookupFails queueAfterAdd).queue).calls := by
  refine ⟨by decide, by decide, by decide, by decide, by decide, by decide, by decide,
    by decide⟩

/-- C2, the retry bound, evaluated where it breaks.  The queue holds the item
of the add event of ns1/sd1 and every lookup fails.  The first step requeues the
key with AddRateLimited and then runs the final Forget, so the failure counter
is zero again; however many steps the worker runs, the error reporter is never
called (the second step pops the bare key and fails its type assertion). -/
theorem retry_bound_broken :
    (processNextItem lookupFails queueAfterAdd).outcome = .returned true ∧
    (processNextItem lookupFails queueAfterAdd).calls
      = [.AddRateLimited "ns1/sd1", .Forget "ns1/sd1", .Done (.event ⟨"ns1/sd1", create⟩)] ∧
    (processNextItem lookupFails queueAfterAdd).queue.NumRequeues "ns1/sd1" = 0 ∧
    ∀ n err, Call.HandleError err ∉ (runWorkerSteps lookupFails n queueAfterAdd).calls := by
  refine ⟨by decide, by decide, by decide, ?_⟩
  intro n err
  have h1 : (processNextItem lookupFails queueAfterAdd).outcome = .returned true := by decide
  have h2 : (processNextItem lookupFails (processNextItem lookupFails queueAfterAdd).queue).outcome
      = .panicked "interface conversion" := by decide
  have c1 : Call.HandleError err ∉ (processNextItem lookupFails queueAfterAdd).calls := by
    have : (processNextItem lookupFails queueAfterAdd).calls
        = [.AddRateLimited "ns1/sd1", .Forget "ns1/sd1", .Done (.event ⟨"ns1/sd1", create⟩)] := by
      decide
    rw [this]; simp
  have c2 : Call.HandleError err ∉
      (processNextItem lookupFails (processNextItem lookupFails queueAfterAdd).queue).calls := by
    have : (processNextItem lookupFails (processNextItem lookupFails queueAfterAdd).queue).calls
        = [.Done (.key "ns1/sd1")] := by decide
    rw [this]; simp
  match n with
  | 0 => simp [runWorkerSteps]
  | 1 => simp [runWorkerSteps, h1, c1]
  | n + 2 => simp [runWorkerSteps, h1, h2, c1, c2]

/-- C8, the type of queued values, evaluated where it breaks.  From the queue of
a fresh controller after the add event of ns1/sd1, a step whose lookup fails
leaves the bare string key pending, not a (key, operation) item, and the next
step fails the type assertion on it. -/
theorem retry_pushes_bare_key :
    queueAfterAdd.queue = [.event ⟨"ns1/sd1", create⟩] ∧
    (processNextItem lookupFails queueAfterAdd).queue.queue = [.key "ns1/sd1"] ∧
    (processNextItem lookupFails (processNextItem lookupFails queueAfterAdd).queue).outcome
      = .panicked "interface conversion" := by
  refine ⟨by decide, by decide, by decide⟩

/-! ## Orphan adoption on a workload add -/

theorem ownerReferenceScan_foldl_none (refs : List OwnerReference) (st : Bool × String)
    (h : ∀ r ∈ refs, r.Kind ≠ "SelectiveDeployment") :
    refs.foldl
      (fun st reference =>
        if reference.Kind = "SelectiveDeployment" then (true, reference.Name) else st) st = st := by
  induction refs generalizing st with
  | nil => rfl
  | cons r rest ih =>
    have hr : r.Kind ≠ "SelectiveDeployment" := h r (List.mem_cons_self _ _)
    simp only [List.foldl_cons, if_neg hr]
    exact ih st (fun x hx => h x (List.mem_cons_of_mem _ hx))

/-- A workload without an owner reference of kind SelectiveDeployment is looked
up under the empty name, whatever its own name is. -/
theorem workloadAddCase_orphan (c : Cluster) (w : Workload)
    (h : ∀ r ∈ w.ObjectMeta.OwnerReferences, r.Kind ≠ "SelectiveDeployment") :
    workloadAddCase c w =
      match c.getSD w.ObjectMeta.Namespace "" with
      | some ownerSD => ⟨[⟨sdKey ownerSD, update⟩], none⟩
      | none => ⟨[], none⟩ := by
  have hscan : ownerReferenceScan w.ObjectMeta.OwnerReferences = (false, "") :=
    ownerReferenceScan_foldl_none _ _ h
  simp only [workloadAddCase, hscan]
  cases c.getSD w.ObjectMeta.Namespace "" <;> simp [addToQueue_eq]

/-- C3, orphan adoption, evaluated where it breaks.  A SelectiveDeployment named
d1 exists in namespace ns1 and none is stored under the empty name; the added
Deployment ns1/d1 carries no owner reference; yet the callback pushes nothing,
because the name it looks up is the zero value of sdName, the empty string. -/
theorem orphan_not_adopted :
    d1.ObjectMeta.OwnerReferences = [] ∧
    orphanCluster.getSD "ns1" "d1" = some (sampleSD "ns1" "d1" true success [] [0]) ∧
    orphanCluster.getSD "ns1" "" = none ∧
    workloadAddFunc orphanCluster (.Deployment d1) = ⟨[], none⟩ := by
  refine ⟨rfl, by decide, by decide, by decide⟩

/-! ## The queue as a set -/

theorem Add_shuttingDown (q : WorkQueue) (item : QueueItem) :
    (q.Add item).shuttingDown = q.shuttingDown := by
  unfold WorkQueue.Add
  split
  · rfl
  · split <;> rfl

theorem mem_Add (q : WorkQueue) (item x : QueueItem) (h : x ∈ (q.Add item).queue) :
    x ∈ q.queue ∨ x = item := by
  unfold WorkQueue.Add at h
  split at h
  · exact Or.inl h
  · split at h
    · exact Or.inl h
    · simpa using h

theorem Add_nodup (q : WorkQueue) (item : QueueItem) (h : q.queue.Nodup) :
    (q.Add item).queue.Nodup := by
  unfold WorkQueue.Add
  split
  · exact h
  · split
    · exact h
    · rename_i hnot
      show (q.queue ++ [item]).Nodup
      rw [List.nodup_append]
      refine ⟨h, List.nodup_singleton _, ?_⟩
      intro a ha hb
      rw [List.mem_singleton] at hb
      exact hnot (hb ▸ ha)

theorem AddAll_shuttingDown (q : WorkQueue) (pushes : List informerevent) :
    (q.AddAll pushes).shuttingDown = q.shuttingDown := by
  induction pushes generalizing q with
  | nil => rfl
  | cons e rest ih =>
    show ((q.Add (.event e)).AddAll rest).shuttingDown = _
    rw [ih, Add_shuttingDown]

theorem AddAll_nodup (q : WorkQueue) (pushes : List informerevent) (h : q.queue.Nodup) :
    (q.AddAll pushes).queue.Nodup := by
  induction pushes generalizing q with
  | nil => exact h
  | cons e rest ih => exact ih (q.Add (.event e)) (Add_nodup q _ h)

theorem mem_AddAll (q : WorkQueue) (pushes : List informerevent) (x : QueueItem)
    (h : x ∈ (q.AddAll pushes).queue) : x ∈ q.queue ∨ ∃ e ∈ pushes, x = .event e := by
  induction pushes generalizing q with
  | nil => exact Or.inl h
  | cons p rest ih =>
    rcases ih (q.Add (.event p)) h with h1 | ⟨e, he, hx⟩
    · rcases mem_Add q _ x h1 with h2 | h2
      · exact Or.inl h2
      · exact Or.inr ⟨p, List.mem_cons_self _ _, h2⟩
    · exact Or.inr ⟨e, List.mem_cons_of_mem _ he, hx⟩

theorem sdEvent_pushes_function (ev : SDEvent) :
    ∀ e ∈ ev.pushes, e.function = create ∨ e.function = update := by
  intro e he
  cases ev with
  | add obj =>
    simp only [SDEvent.pushes, sdAddFunc] at he
    split at he
    · simp only [List.mem_singleton] at he
      exact Or.inl (he ▸ rfl)
    · simp at he
  | update oldObj newObj =>
    simp only [SDEvent.pushes, sdUpdateFunc] at he
    split at he
    · split at he
      · split at he
        · simp only [List.mem_singleton] at he
          exact Or.inr (he ▸ rfl)
        · simp at he
      · simp at he
    · simp at he

theorem sdBurst_nodup (q : WorkQueue) (events : List SDEvent) (h : q.queue.Nodup) :
    (sdBurst q events).queue.Nodup := by
  induction events generalizing q with
  | nil => exact h
  | cons ev rest ih => exact ih (q.AddAll ev.pushes) (AddAll_nodup q _ h)

theorem mem_sdBurst (q : WorkQueue) (events : List SDEvent) (x : QueueItem)
    (h : x ∈ (sdBurst q events).queue) :
    x ∈ q.queue ∨ ∃ e : informerevent, x = .event e ∧ (e.function = create ∨ e.function = update) := by
  induction events generalizing q with
  | nil => exact Or.inl h
  | cons ev rest ih =>
    rcases ih (q.AddAll ev.pushes) h with h1 | h1
    · rcases mem_AddAll q _ x h1 with h2 | ⟨e, he, hx⟩
      · exact Or.inl h2
      · exact Or.inr ⟨e, hx, sdEvent_pushes_function ev e he⟩
    · exact Or.inr h1

/-- C5 as stated fails: on the queue of a fresh controller, the add event of
ns1/sd1 followed by an update event of the same object (equal statuses) leaves
two pending items for the key ns1/sd1, one per operation. -/
theorem burst_two_pending :
    MetaNamespaceKeyFunc (.SelectiveDeployment sd1) = .ok "ns1/sd1" ∧
    (sdBurst WorkQueue.empty
        [.add (.SelectiveDeployment sd1),
          .update (.SelectiveDeployment sd1) (.SelectiveDeployment sd1)]).pendingFor "ns1/sd1"
      = [.event ⟨"ns1/sd1", create⟩, .event ⟨"ns1/sd1", update⟩] ∧
    ¬ ((sdBurst WorkQueue.empty
        [.add (.SelectiveDeployment sd1),
          .update (.SelectiveDeployment sd1) (.SelectiveDeployment sd1)]).pendingFor
            "ns1/sd1").length ≤ 1 := by
  refine ⟨rfl, by decide, by decide⟩

/-- C5 amended, deduplication per (key, operation).  On a queue without
duplicates, after any burst of SelectiveDeployment add and update events with no
pop in between, the queue is still without duplicates: every item, that is
every (key, operation) pair, is pending at most once.  Hence a key that had
nothing pending before the burst has at most two pending items after it, its
create item and its update item. -/
theorem burst_dedup (q : WorkQueue) (events : List SDEvent) (k : String)
    (hq : q.queue.Nodup) :
    (sdBurst q events).queue.Nodup ∧
    (∀ item, (sdBurst q events).queue.count item ≤ 1) ∧
    (q.pendingFor k = [] →
      (∀ x ∈ (sdBurst q events).pendingFor k,
        x = .event ⟨k, create⟩ ∨ x = .event ⟨k, update⟩) ∧
      ((sdBurst q events).pendingFor k).length ≤ 2) := by
  have hn := sdBurst_nodup q events hq
  refine ⟨hn, fun item => List.nodup_iff_count_le_one.mp hn item, ?_⟩
  intro hk
  have hsub : ∀ x ∈ (sdBurst q events).pendingFor k,
      x = .event ⟨k, create⟩ ∨ x = .event ⟨k, update⟩ := by
    intro x hx
    simp only [WorkQueue.pendingFor, List.mem_filter, decide_eq_true_eq] at hx
    obtain ⟨hmem, hkey⟩ := hx
    rcases mem_sdBurst q events x hmem with h1 | ⟨e, hxe, hf⟩
    · have : x ∈ q.pendingFor k := by
        simp only [WorkQueue.pendingFor, List.mem_filter, decide_eq_true_eq]
        exact ⟨h1, hkey⟩
      rw [hk] at this
      simp at this
    · subst hxe
      simp only [QueueItem.itemKey] at hkey
      cases e with
      | mk key function =>
        simp only at hkey hf
        subst hkey
        rcases hf with hf | hf
        · exact Or.inl (by rw [hf])
        · exact Or.inr (by rw [hf])
  refine ⟨hsub, ?_⟩
  have hnf : ((sdBurst q events).pendingFor k).Nodup := List.Nodup.filter _ hn
  have hs : (sdBurst q events).pendingFor k ⊆
      [QueueItem.event ⟨k, create⟩, QueueItem.event ⟨k, update⟩] := by
    intro x hx
    rcases hsub x hx with h | h <;> simp [h]
  exact (List.Nodup.subperm hnf hs).length_le

theorem burst_dedup_witness :
    WorkQueue.empty.queue.Nodup ∧
    (∀ item, (sdBurst WorkQueue.empty
        [.add (.SelectiveDeployment sd1),
          .update (.SelectiveDeployment sd1) (.SelectiveDeployment sd1),
          .add (.SelectiveDeployment sd1)]).queue.count item ≤ 1) ∧
    ((sdBurst WorkQueue.empty
        [.add (.SelectiveDeployment sd1),
          .update (.SelectiveDeployment sd1) (.SelectiveDeployment sd1),
          .add (.SelectiveDeployment sd1)]).pendingFor "ns1/sd1").length ≤ 2 :=
  have h := burst_dedup WorkQueue.empty
    [.add (.SelectiveDeployment sd1),
      .update (.SelectiveDeployment sd1) (.SelectiveDeployment sd1),
      .add (.SelectiveDeployment sd1)] "ns1/sd1" List.nodup_nil
  ⟨List.nodup_nil, h.2.1, (h.2.2 rfl).2⟩

/-! ## Ownership disruption: node delete and the demand path of node update -/

theorem mem_ownerLoop (c : Cluster) (l : List (String × String)) (e : informerevent) :
    e ∈ ownerLoop c l ↔
      ∃ owner ∈ l, ∃ sd, c.getSD owner.1 owner.2 = some sd ∧ sd.Spec.Recovery = true ∧
        e = ⟨sdKey sd, update⟩ := by
  induction l with
  | nil => simp [ownerLoop]
  | cons o rest ih =>
    unfold ownerLoop
    cases hg : c.getSD o.1 o.2 with
    | none => simp [ih, hg]
    | some sd =>
      by_cases hr : sd.Spec.Recovery = true
      · simp only [if_pos hr, metaKey_sd, List.mem_append, List.mem_singleton, ih,
          List.mem_cons, exists_eq_or_imp, hg, Option.some.injEq, List.not_mem_nil, or_false]
        constructor
        · rintro (h | h)
          · exact Or.inl ⟨sd, rfl, hr, h⟩
          · exact Or.inr h
        · rintro (⟨sd2, h1, _, h3⟩ | h)
          · exact Or.inl (h1 ▸ h3)
          · exact Or.inr h
      · simp only [if_neg hr, ih, List.mem_cons, exists_eq_or_imp, hg, Option.some.injEq]
        constructor
        · intro h; exact Or.inr h
        · rintro (⟨sd2, h1, h2, _⟩ | h)
          · exact absurd (h1 ▸ h2) hr
          · exact h

theorem nodeUpdateFunc_demand (c : Cluster) (oldObj newObj : Node)
    (hs : ¬ supplyCondition (c.GetConditionReadyStatus oldObj) (c.GetConditionReadyStatus newObj)
      oldObj newObj)
    (hd : demandCondition (c.GetConditionReadyStatus oldObj) (c.GetConditionReadyStatus newObj)
      oldObj newObj (c.CompareIPAddresses oldObj newObj)) :
    nodeUpdateFunc c (.Node oldObj) (.Node newObj) =
      if (c.getByNode newObj.ObjectMeta.Name).2 = true then
        ⟨ownerLoop c (c.getByNode newObj.ObjectMeta.Name).1, none⟩
      else ⟨[], none⟩ := by
  simp only [nodeUpdateFunc, if_neg hs, if_pos hd, metaKey_node]

/-- C7 as stated fails: the node n1 goes from Ready True to Ready False while
its Unschedulable flag goes from true to false.  The ownership index lists
ns1/sd2 for n1, that object can be fetched and has recovery on, yet it is not
pushed: the update takes the recovery-scan branch and the ownership branch is
skipped. -/
theorem demand_shadowed_by_supply :
    sampleCluster.GetConditionReadyStatus (sampleNode "n1" "True" true) = trueStr ∧
    sampleCluster.GetConditionReadyStatus (sampleNode "n1" "False" false) = falseStr ∧
    (sampleCluster.getByNode "n1").2 = true ∧
    ("ns1", "sd2") ∈ (sampleCluster.getByNode "n1").1 ∧
    sampleCluster.getSD "ns1" "sd2" = some sd2 ∧
    sd2.Spec.Recovery = true ∧
    (⟨sdKey sd2, update⟩ : informerevent) ∉
      (nodeUpdateFunc sampleCluster (.Node (sampleNode "n1" "True" true))
        (.Node (sampleNode "n1" "False" false))).pushes := by
  refine ⟨by decide, by decide, by decide, by decide, by decide, by decide, by decide⟩

/-- C7 amended, the demand path of the node UpdateFunc.  Take a node update
that is not a supply transition (Ready does not go from False or Unknown to
True, and Unschedulable does not go from true to false) and in which Ready goes
from True to False or Unknown, or Unschedulable goes from false to true, or
Unschedulable stays false while the new Ready status is True and
CompareIPAddresses reports a change.  Then the callback ends without panic;
when getByNode reports found = true for the node, every owner entry that
resolves to a SelectiveDeployment with recovery on is pushed for update, with no
condition on its state, messages or selector quantities, and every push comes
from such an entry; when getByNode reports found = false nothing is pushed. -/
theorem node_update_demand (c : Cluster) (oldObj newObj : Node)
    (hNoSupply :
      ¬ ((c.GetConditionReadyStatus oldObj = falseStr ∨
            c.GetConditionReadyStatus oldObj = unknownStr) ∧
          c.GetConditionReadyStatus newObj = trueStr) ∧
      ¬ (oldObj.Spec.Unschedulable = true ∧ newObj.Spec.Unschedulable = false))
    (hDemand :
      (c.GetConditionReadyStatus oldObj = trueStr ∧
        (c.GetConditionReadyStatus newObj = falseStr ∨
          c.GetConditionReadyStatus newObj = unknownStr)) ∨
      (oldObj.Spec.Unschedulable = false ∧ newObj.Spec.Unschedulable = true) ∨
      (oldObj.Spec.Unschedulable = false ∧ newObj.Spec.Unschedulable = false ∧
        c.GetConditionReadyStatus newObj = trueStr ∧ c.CompareIPAddresses oldObj newObj = true)) :
    (nodeUpdateFunc c (.Node oldObj) (.Node newObj)).panic = none ∧
    ((c.getByNode newObj.ObjectMeta.Name).2 = true →
      (∀ owner ∈ (c.getByNode newObj.ObjectMeta.Name).1, ∀ sd,
        c.getSD owner.1 owner.2 = some sd → sd.Spec.Recovery = true →
          (⟨sdKey sd, update⟩ : informerevent) ∈
            (nodeUpdateFunc c (.Node oldObj) (.Node newObj)).pushes) ∧
      (∀ e ∈ (nodeUpdateFunc c (.Node oldObj) (.Node newObj)).pushes,
        ∃ owner ∈ (c.getByNode newObj.ObjectMeta.Name).1, ∃ sd,
          c.getSD owner.1 owner.2 = some sd ∧ sd.Spec.Recovery = true ∧
            e = ⟨sdKey sd, update⟩)) ∧
    ((c.getByNode newObj.ObjectMeta.Name).2 = false →
      (nodeUpdateFunc c (.Node oldObj) (.Node newObj)).pushes = []) := by
  have hs : ¬ supplyCondition (c.GetConditionReadyStatus oldObj)
      (c.GetConditionReadyStatus newObj) oldObj newObj := by
    rintro (⟨h1, h2⟩ | ⟨h1, h2⟩ | h)
    · exact hNoSupply.1 ⟨Or.inl h1, h2⟩
    · exact hNoSupply.1 ⟨Or.inr h1, h2⟩
    · exact hNoSupply.2 h
  have hd : demandCondition (c.GetConditionReadyStatus oldObj)
      (c.GetConditionReadyStatus newObj) oldObj newObj (c.CompareIPAddresses oldObj newObj) := by
    rcases hDemand with ⟨h1, h2 | h2⟩ | h | ⟨_, h2, h3, h4⟩
    · exact Or.inl ⟨h1, h2⟩
    · exact Or.inr (Or.inl ⟨h1, h2⟩)
    · exact Or.inr (Or.inr (Or.inl h))
    · exact Or.inr (Or.inr (Or.inr ⟨h2, h3, h4⟩))
  rw [nodeUpdateFunc_demand c oldObj newObj hs hd]
  refine ⟨?_, ?_, ?_⟩
  · split <;> rfl
  · intro hf
    simp only [hf, if_true]
    exact ⟨fun owner ho sd hg hr => (mem_ownerLoop c _ _).mpr ⟨owner, ho, sd, hg, hr, rfl⟩,
      fun e he => (mem_ownerLoop c _ _).mp he⟩
  · intro hf
    simp [hf]

theorem node_update_demand_witness :
    (sampleCluster.GetConditionReadyStatus (sampleNode "n1" "True" false) = trueStr ∧
      sampleCluster.GetConditionReadyStatus (sampleNode "n1" "Unknown" false) = unknownStr) ∧
    (⟨"ns1/sd2", update⟩ : informerevent) ∈
      (nodeUpdateFunc sampleCluster (.Node (sampleNode "n1" "True" false))
        (.Node (sampleNode "n1" "Unknown" false))).pushes :=
  ⟨⟨by decide, by decide⟩,
    ((node_update_demand sampleCluster (sampleNode "n1" "True" false)
      (sampleNode "n1" "Unknown" false) (by decide) (by decide)).2.1 (by decide)).1
        ("ns1", "sd2") (by decide) sd2 (by decide) (by decide)⟩

/-! ## Workload delete -/

theorem mem_selectorLoop (sd : SelectiveDeployment) (sels : List Selector) (e : informerevent) :
    e ∈ selectorLoop sd sels ↔
      e = ⟨sdKey sd, update⟩ ∧
        ∃ sel ∈ sels, sel.Quantity = 0 ∨
          (sel.Quantity ≠ 0 ∧ fewerNodes sd.Status.Message = true) := by
  induction sels with
  | nil => simp [selectorLoop]
  | cons sel rest ih =>
    unfold selectorLoop
    by_cases hq : sel.Quantity = 0 ∨ (sel.Quantity ≠ 0 ∧ fewerNodes sd.Status.Message = true)
    · rw [if_pos hq]
      simp only [metaKey_sd, List.mem_singleton]
      constructor
      · intro h
        exact ⟨h, sel, List.mem_cons_self _ _, hq⟩
      · intro h
        exact h.1
    · rw [if_neg hq, ih]
      constructor
      · rintro ⟨h1, s0, hs0, h2⟩
        exact ⟨h1, s0, List.mem_cons_of_mem _ hs0, h2⟩
      · rintro ⟨h1, s0, hs0, h2⟩
        rcases List.mem_cons.mp hs0 with h | h
        · subst h
          exact absurd h2 hq
        · exact ⟨h1, s0, h, h2⟩

theorem selectorLoop_length_le (sd : SelectiveDeployment) (sels : List Selector) :
    (selectorLoop sd sels).length ≤ 1 := by
  induction sels with
  | nil => simp [selectorLoop]
  | cons sel rest ih =>
    unfold selectorLoop
    split
    · simp [metaKey_sd]
    · exact ih

theorem mem_recoveryScanRow (sd : SelectiveDeployment) (e : informerevent) :
    e ∈ recoveryScanRow sd ↔
      e = ⟨sdKey sd, update⟩ ∧ sd.Spec.Recovery = true ∧
        (sd.Status.State = partialState ∨ sd.Status.State = failure) ∧
        ∃ sel ∈ sd.Spec.Selector, sel.Quantity = 0 ∨
          (sel.Quantity ≠ 0 ∧ fewerNodes sd.Status.Message = true) := by
  unfold recoveryScanRow
  by_cases hr : sd.Spec.Recovery = true
  · by_cases hs : sd.Status.State = partialState ∨ sd.Status.State = failure
    · rw [if_pos hr, if_pos hs, mem_selectorLoop]
      constructor
      · rintro ⟨h1, h2⟩
        exact ⟨h1, hr, hs, h2⟩
      · rintro ⟨h1, _, _, h2⟩
        exact ⟨h1, h2⟩
    · rw [if_pos hr, if_neg hs]
      simp only [List.not_mem_nil, false_iff]
      rintro ⟨_, _, h, _⟩
      exact hs h
  · rw [if_neg hr]
    simp only [List.not_mem_nil, false_iff]
    rintro ⟨_, h, _⟩
    exact hr h

theorem recoveryScanRow_length_le (sd : SelectiveDeployment) :
    (recoveryScanRow sd).length ≤ 1 := by
  unfold recoveryScanRow
  split
  · split
    · exact selectorLoop_length_le sd _
    · simp
  · simp

theorem nodeAddConditions_panic (c : Cluster) (n : Node) (conds : List NodeCondition) :
    (nodeAddConditions c (.Node n) conds).panic = none := by
  induction conds with
  | nil => rfl
  | cons row rest ih =>
    unfold nodeAddConditions
    split
    · split
      · simp only [metaKey_node]
        exact ih
      · exact ih
    · exact ih

theorem mem_nodeAddConditions (c : Cluster) (n : Node) (conds : List NodeCondition)
    (e : informerevent) :
    e ∈ (nodeAddConditions c (.Node n) conds).pushes ↔
      (∃ row ∈ conds, row.Type_ = "Ready" ∧ row.Status = trueStr) ∧
        e ∈ recoveryScan c.sdList := by
  induction conds with
  | nil => simp [nodeAddConditions]
  | cons row rest ih =>
    unfold nodeAddConditions
    by_cases ht : row.Type_ = "Ready"
    · by_cases hs : row.Status = trueStr
      · simp only [if_pos ht, if_pos hs, metaKey_node, List.mem_append, ih]
        constructor
        · rintro (h | h)
          · exact ⟨⟨row, List.mem_cons_self _ _, ht, hs⟩, h⟩
          · exact ⟨⟨row, List.mem_cons_self _ _, ht, hs⟩, h.2⟩
        · rintro ⟨_, h⟩
          exact Or.inl h
      · simp only [if_pos ht, if_neg hs, ih]
        constructor
        · rintro ⟨⟨r, hr, h1, h2⟩, h⟩
          exact ⟨⟨r, List.mem_cons_of_mem _ hr, h1, h2⟩, h⟩
        · rintro ⟨⟨r, hr, h1, h2⟩, h⟩
          rcases List.mem_cons.mp hr with h0 | h0
          · subst h0
            exact absurd h2 hs
          · exact ⟨⟨r, h0, h1, h2⟩, h⟩
    · simp only [if_neg ht, ih]
      constructor
      · rintro ⟨⟨r, hr, h1, h2⟩, h⟩
        exact ⟨⟨r, List.mem_cons_of_mem _ hr, h1, h2⟩, h⟩
      · rintro ⟨⟨r, hr, h1, h2⟩, h⟩
        rcases List.mem_cons.mp hr with h0 | h0
        · subst h0
          exact absurd h1 ht
        · exact ⟨⟨r, h0, h1, h2⟩, h⟩

theorem fewerNodes_iff (messages : List String) :
    fewerNodes messages = true ↔
      ∃ m ∈ messages, stringsContains m "Fewer nodes issue" = true := by
  rw [fewerNodes_eq_any, List.any_eq_true]

/-- Whether a listed SelectiveDeployment is pushed by a recovery scan over a
listing in which no other object shares its key. -/
theorem mem_recoveryScan_of_unique (l : List SelectiveDeployment) (sd : SelectiveDeployment)
    (hsd : sd ∈ l) (huniq : ∀ other ∈ l, sdKey other = sdKey sd → other = sd) :
    (⟨sdKey sd, update⟩ : informerevent) ∈ recoveryScan l ↔
      sd.Spec.Recovery = true ∧
        (sd.Status.State = partialState ∨ sd.Status.State = failure) ∧
        ∃ sel ∈ sd.Spec.Selector, sel.Quantity = 0 ∨
          (sel.Quantity ≠ 0 ∧ fewerNodes sd.Status.Message = true) := by
  rw [mem_recoveryScan]
  constructor
  · rintro ⟨other, ho, hrow⟩
    have h := (mem_recoveryScanRow other _).mp hrow
    have hk : sdKey other = sdKey sd := by
      have := congrArg informerevent.key h.1
      exact this.symm
    have heq := huniq other ho hk
    subst heq
    exact h.2
  · intro h
    exact ⟨sd, hsd, (mem_recoveryScanRow sd _).mpr ⟨rfl, h⟩⟩

/-- C12 as stated fails: the listed SelectiveDeployment ns1/neg has recovery on,
state Partial, the sentinel message and a single selector of quantity -1, so it
has no selector with quantity 0 and none with a quantity above 0; yet the add
event of a node whose Ready condition is True pushes it for update. -/
theorem node_add_negative_quantity :
    sdNeg ∈ negCluster.sdList ∧
    (∀ sel ∈ sdNeg.Spec.Selector, ¬ (sel.Quantity = 0 ∨ 0 < sel.Quantity)) ∧
    (⟨sdKey sdNeg, update⟩ : informerevent) ∈
      (nodeAddFunc negCluster (.Node (sampleNode "n1" "True" false))).pushes := by
  refine ⟨by decide, by decide, by decide⟩

/-- C12 amended, the recovery scan on a node add.  The callback ends without
panic.  For every listed SelectiveDeployment whose key no other listed object
shares, the item (its key, update) is pushed if and only if the node has a
Ready condition with status True, the object has recovery on, its state is
Partial or Failure, and it has at least one selector with quantity equal to 0,
or with quantity different from 0 while some status message contains "Fewer
nodes issue".  When no selector quantity is negative this is the same as
quantity 0, or quantity above 0 under the sentinel.  A node without a Ready
condition of status True pushes nothing. -/
theorem node_add_recovery (c : Cluster) (nodeObj : Node) (sd : SelectiveDeployment)
    (hsd : sd ∈ c.sdList)
    (huniq : ∀ other ∈ c.sdList, sdKey other = sdKey sd → other = sd) :
    (nodeAddFunc c (.Node nodeObj)).panic = none ∧
    ((⟨sdKey sd, update⟩ : informerevent) ∈ (nodeAddFunc c (.Node nodeObj)).pushes ↔
      (∃ row ∈ nodeObj.Status.Conditions, row.Type_ = "Ready" ∧ row.Status = trueStr) ∧
      sd.Spec.Recovery = true ∧
      (sd.Status.State = partialState ∨ sd.Status.State = failure) ∧
      ∃ sel ∈ sd.Spec.Selector, sel.Quantity = 0 ∨
        (sel.Quantity ≠ 0 ∧
          ∃ m ∈ sd.Status.Message, stringsContains m "Fewer nodes issue" = true)) ∧
    ((∀ sel ∈ sd.Spec.Selector, 0 ≤ sel.Quantity) →
      ((⟨sdKey sd, update⟩ : informerevent) ∈ (nodeAddFunc c (.Node nodeObj)).pushes ↔
        (∃ row ∈ nodeObj.Status.Conditions, row.Type_ = "Ready" ∧ row.Status = trueStr) ∧
        sd.Spec.Recovery = true ∧
        (sd.Status.State = partialState ∨ sd.Status.State = failure) ∧
        ∃ sel ∈ sd.Spec.Selector, sel.Quantity = 0 ∨
          (0 < sel.Quantity ∧
            ∃ m ∈ sd.Status.Message, stringsContains m "Fewer nodes issue" = true))) ∧
    ((¬ ∃ row ∈ nodeObj.Status.Conditions, row.Type_ = "Ready" ∧ row.Status = trueStr) →
      (nodeAddFunc c (.Node nodeObj)).pushes = []) := by
  have hexact : (⟨sdKey sd, update⟩ : informerevent) ∈ (nodeAddFunc c (.Node nodeObj)).pushes ↔
      (∃ row ∈ nodeObj.Status.Conditions, row.Type_ = "Ready" ∧ row.Status = trueStr) ∧
      sd.Spec.Recovery = true ∧
      (sd.Status.State = partialState ∨ sd.Status.State = failure) ∧
      ∃ sel ∈ sd.Spec.Selector, sel.Quantity = 0 ∨
        (sel.Quantity ≠ 0 ∧
          ∃ m ∈ sd.Status.Message, stringsContains m "Fewer nodes issue" = true) := by
    show _ ∈ (nodeAddConditions c (.Node nodeObj) nodeObj.Status.Conditions).pushes ↔ _
    rw [mem_nodeAddConditions, mem_recoveryScan_of_unique c.sdList sd hsd huniq]
    simp only [fewerNodes_iff]
  refine ⟨nodeAddConditions_panic c nodeObj _, hexact, ?_, ?_⟩
  · intro hnn
    rw [hexact]
    constructor
    · rintro ⟨h1, h2, h3, sel, hs, hq⟩
      refine ⟨h1, h2, h3, sel, hs, ?_⟩
      rcases hq with h0 | ⟨hne, hm⟩
      · exact Or.inl h0
      · exact Or.inr ⟨lt_of_le_of_ne (hnn sel hs) (Ne.symm hne), hm⟩
    · rintro ⟨h1, h2, h3, sel, hs, hq⟩
      refine ⟨h1, h2, h3, sel, hs, ?_⟩
      rcases hq with h0 | ⟨hpos, hm⟩
      · exact Or.inl h0
      · exact Or.inr ⟨ne_of_gt hpos, hm⟩
  · intro hno
    apply List.eq_nil_iff_forall_not_mem.mpr
    intro e he
    change e ∈ (nodeAddConditions c (.Node nodeObj) nodeObj.Status.Conditions).pushes at he
    rw [mem_nodeAddConditions] at he
    exact hno he.1

theorem node_add_recovery_witness :
    (sd4 ∈ scanCluster.sdList ∧
      ∀ other ∈ scanCluster.sdList, sdKey other = sdKey sd4 → other = sd4) ∧
    (⟨"ns1/sd4", update⟩ : informerevent) ∈
      (nodeAddFunc scanCluster (.Node (sampleNode "n1" "True" false))).pushes ∧
    (nodeAddFunc scanCluster (.Node nodeNotReady)).pushes = [] :=
  ⟨⟨by decide, by decide⟩,
    ((node_add_recovery scanCluster (sampleNode "n1" "True" false) sd4 (by decide)
      (by decide)).2.2.1 (by decide)).mpr
        ⟨⟨_, List.mem_singleton.mpr rfl, rfl, rfl⟩, rfl, Or.inr rfl,
          ⟨⟨0⟩, by decide, Or.inl rfl⟩⟩,
    (node_add_recovery scanCluster nodeNotReady sd4 (by decide) (by decide)).2.2.2
      (by decide)⟩

/-! ## Event objects without a key -/

theorem accessor_none_of_key_error (obj : Obj) (err : String)
    (hkey : MetaNamespaceKeyFunc obj = .error err) :
    (∃ k, obj = .DeletedFinalStateUnknown k) ∨ obj = .other := by
  cases obj with
  | DeletedFinalStateUnknown k => exact Or.inl ⟨k, rfl⟩
  | other => exact Or.inr rfl
  | _ => simp [MetaNamespaceKeyFunc, Obj.Accessor] at hkey

/-- C11 as stated fails: the delete event of node n1 arrives as a tombstone, from
which the key function derives no key, and the node DeleteFunc panics instead of
returning. -/
theorem node_delete_tombstone_panics :
    MetaNamespaceKeyFunc (.DeletedFinalStateUnknown "n1") = .error "object has no meta" ∧
    (nodeDeleteFunc sampleCluster (.DeletedFinalStateUnknown "n1")).panic
      = some "interface conversion" := by
  refine ⟨rfl, rfl⟩

/-- C11 amended, event objects from which no key can be derived.  When the key
function fails on the event object, no watch callback pushes anything.  The
SelectiveDeployment add and delete callbacks and the workload add and delete
callbacks return normally.  The SelectiveDeployment update callback and the
node add, update and delete callbacks push nothing but end in a panic. -/
theorem malformed_key_callbacks (c : Cluster) (obj oldObj : Obj) (err : String)
    (hkey : MetaNamespaceKeyFunc obj = .error err) :
    sdAddFunc obj = ⟨[], none⟩ ∧
    ((∀ k, DeletionHandlingMetaNamespaceKeyFunc obj ≠ .ok k) → sdDeleteFunc obj = ⟨[], none⟩) ∧
    workloadAddFunc c obj = ⟨[], none⟩ ∧
    workloadDeleteFunc c obj = ⟨[], none⟩ ∧
    ((sdUpdateFunc oldObj obj).pushes = [] ∧ (sdUpdateFunc oldObj obj).panic ≠ none) ∧
    ((nodeAddFunc c obj).pushes = [] ∧ (nodeAddFunc c obj).panic ≠ none) ∧
    ((nodeUpdateFunc c oldObj obj).pushes = [] ∧ (nodeUpdateFunc c oldObj obj).panic ≠ none) ∧
    ((nodeDeleteFunc c obj).pushes = [] ∧ (nodeDeleteFunc c obj).panic ≠ none) := by
  rcases accessor_none_of_key_error obj err hkey with ⟨k, h⟩ | h
  · subst h
    refine ⟨rfl, ?_, rfl, rfl, ?_, ⟨rfl, by simp [nodeAddFunc]⟩, ?_,
      ⟨rfl, by simp [nodeDeleteFunc]⟩⟩
    · intro hno
      exact absurd rfl (hno k)
    · cases oldObj <;> exact ⟨rfl, by simp [sdUpdateFunc]⟩
    · cases oldObj <;> exact ⟨rfl, by simp [nodeUpdateFunc]⟩
  · subst h
    refine ⟨rfl, fun _ => rfl, rfl, rfl, ?_, ⟨rfl, by simp [nodeAddFunc]⟩, ?_,
      ⟨rfl, by simp [nodeDeleteFunc]⟩⟩
    · cases oldObj <;> exact ⟨rfl, by simp [sdUpdateFunc]⟩
    · cases oldObj <;> exact ⟨rfl, by simp [nodeUpdateFunc]⟩

theorem malformed_key_callbacks_witness :
    MetaNamespaceKeyFunc Obj.other = .error "object has no meta" ∧
    sdAddFunc Obj.other = ⟨[], none⟩ ∧
    sdDeleteFunc Obj.other = ⟨[], none⟩ ∧
    workloadAddFunc sampleCluster Obj.other = ⟨[], none⟩ ∧
    workloadDeleteFunc sampleCluster Obj.other = ⟨[], none⟩ ∧
    (nodeAddFunc sampleCluster Obj.other).pushes = [] :=
  have h := malformed_key_callbacks sampleCluster Obj.other (.SelectiveDeployment sd1)
    "object has no meta" rfl
  ⟨rfl, h.1, h.2.1 (by intro k hk; cases hk), h.2.2.1, h.2.2.2.1, h.2.2.2.2.2.1.1⟩

/-! ## The self-trigger filter of the SelectiveDeployment update -/

theorem sliceDeepEqual_iff (x y : Option (List String)) :
    sliceDeepEqual x y = true ↔ x = y := by
  cases x <;> cases y <;> simp [sliceDeepEqual]

theorem DeepEqual_iff (a b : SelectiveDeploymentStatus) :
    DeepEqual a b = true ↔ a = b := by
  cases a with
  | mk r1 s1 m1 =>
    cases b with
    | mk r2 s2 m2 =>
      simp only [DeepEqual, Bool.and_eq_true, decide_eq_true_eq, sliceDeepEqual_iff,
        SelectiveDeploymentStatus.mk.injEq, and_assoc]

/-- C13, the self-trigger filter.  For every update event of a
SelectiveDeployment (old, new) the callback ends without panic; the item (key
of new, update) is pushed if and only if the two statuses are deeply equal and
the key of the new object can be derived; nothing else is ever pushed; and an
update in which the status differs pushes nothing.  Deeply equal means: equal
Ready, equal State, and Message slices that are both nil or both not nil with
the same elements. -/
theorem sd_update_filter (o n : SelectiveDeployment) :
    (sdUpdateFunc (.SelectiveDeployment o) (.SelectiveDeployment n)).panic = none ∧
    ((⟨sdKey n, update⟩ : informerevent) ∈
        (sdUpdateFunc (.SelectiveDeployment o) (.SelectiveDeployment n)).pushes ↔
      (DeepEqual o.Status n.Status = true ∧
        ∃ k, MetaNamespaceKeyFunc (.SelectiveDeployment n) = .ok k)) ∧
    (∀ e ∈ (sdUpdateFunc (.SelectiveDeployment o) (.SelectiveDeployment n)).pushes,
      e = ⟨sdKey n, update⟩) ∧
    (DeepEqual o.Status n.Status = false →
      (sdUpdateFunc (.SelectiveDeployment o) (.SelectiveDeployment n)).pushes = []) ∧
    (DeepEqual o.Status n.Status = true ↔
      o.Status.Ready = n.Status.Ready ∧ o.Status.State = n.Status.State ∧
        ((o.Status.MessageSlice = none ∧ n.Status.MessageSlice = none) ∨
          ∃ x, o.Status.MessageSlice = some x ∧ n.Status.MessageSlice = some x)) := by
  have hfields : DeepEqual o.Status n.Status = true ↔
      o.Status.Ready = n.Status.Ready ∧ o.Status.State = n.Status.State ∧
        ((o.Status.MessageSlice = none ∧ n.Status.MessageSlice = none) ∨
          ∃ x, o.Status.MessageSlice = some x ∧ n.Status.MessageSlice = some x) := by
    simp only [DeepEqual, Bool.and_eq_true, decide_eq_true_eq, and_assoc]
    cases o.Status.MessageSlice <;> cases n.Status.MessageSlice <;>
      simp [sliceDeepEqual, eq_comm]
  by_cases hs : DeepEqual o.Status n.Status = true
  · have h : sdUpdateFunc (.SelectiveDeployment o) (.SelectiveDeployment n)
        = ⟨[⟨sdKey n, update⟩], none⟩ := by
      simp only [sdUpdateFunc, if_pos hs, metaKey_sd]
    rw [h]
    refine ⟨rfl, ?_, ?_, fun hne => ?_, hfields⟩
    · simp only [List.mem_singleton, true_iff]
      exact ⟨hs, sdKey n, rfl⟩
    · intro e he
      simpa using he
    · rw [hs] at hne
      exact absurd hne (by decide)
  · have h : sdUpdateFunc (.SelectiveDeployment o) (.SelectiveDeployment n) = ⟨[], none⟩ := by
      simp only [sdUpdateFunc, if_neg hs]
    rw [h]
    refine ⟨rfl, ?_, ?_, fun _ => rfl, hfields⟩
    · simp only [List.not_mem_nil, false_iff]
      rintro ⟨h1, _⟩
      exact hs h1
    · intro e he
      simp at he

theorem sd_update_filter_witness :
    DeepEqual sd2.Status sd1.Status = false ∧
    (sdUpdateFunc (.SelectiveDeployment sd2) (.SelectiveDeployment sd1)).pushes = [] ∧
    (sd3Nil.Status.Message = sd3.Status.Message ∧
      DeepEqual sd3Nil.Status sd3.Status = false) ∧
    (sdUpdateFunc (.SelectiveDeployment sd3Nil) (.SelectiveDeployment sd3)).pushes = [] ∧
    (sdUpdateFunc (.SelectiveDeployment sd3Ready) (.SelectiveDeployment sd3)).pushes = [] ∧
    (⟨"ns1/sd1", update⟩ : informerevent) ∈
      (sdUpdateFunc (.SelectiveDeployment sd1) (.SelectiveDeployment sd1)).pushes :=
  ⟨by decide, (sd_update_filter sd2 sd1).2.2.2.1 (by decide),
    ⟨by decide, by decide⟩,
    (sd_update_filter sd3Nil sd3).2.2.2.1 (by decide),
    (sd_update_filter sd3Ready sd3).2.2.2.1 (by decide),
    (sd_update_filter sd1 sd1).2.1.mpr ⟨by decide, _, rfl⟩⟩

/-! ## The under-control test of a workload add -/

theorem ownerReferenceScan_foldl_fst (refs : List OwnerReference) (st : Bool × String) :
    (refs.foldl
      (fun st reference =>
        if reference.Kind = "SelectiveDeployment" then (true, reference.Name) else st) st).1
      = (st.1 || refs.any (fun r => decide (r.Kind = "SelectiveDeployment"))) := by
  induction refs generalizing st with
  | nil => simp
  | cons r rest ih =>
    simp only [List.foldl_cons, List.any_cons]
    rw [ih]
    by_cases hk : r.Kind = "SelectiveDeployment"
    · simp [hk]
    · simp [hk]

theorem ownerReferenceScan_fst (refs : List OwnerReference) :
    (ownerReferenceScan refs).1 = true ↔ ∃ r ∈ refs, r.Kind = "SelectiveDeployment" := by
  unfold ownerReferenceScan
  rw [ownerReferenceScan_foldl_fst]
  simp

theorem workloadAddFunc_kinds (c : Cluster) (w : Workload) (obj : Obj)
    (hobj : obj ∈ [Obj.Deployment w, Obj.DaemonSet w, Obj.StatefulSet w, Obj.Job w, Obj.CronJob w]) :
    workloadAddFunc c obj = workloadAddCase c w := by
  simp only [List.mem_cons, List.mem_singleton, List.not_mem_nil, or_false] at hobj
  rcases hobj with h | h | h | h | h <;> subst h <;> rfl

theorem workloadAddCase_controlled (c : Cluster) (w : Workload)
    (h : ∃ r ∈ w.ObjectMeta.OwnerReferences, r.Kind = "SelectiveDeployment") :
    workloadAddCase c w = ⟨[], none⟩ := by
  have hscan := (ownerReferenceScan_fst w.ObjectMeta.OwnerReferences).mpr h
  simp only [workloadAddCase, hscan]
  rfl

/-- C14 as stated fails.  In a cluster where every Get succeeds, the added
Deployment ns1/twin carries two owner references of kind SelectiveDeployment,
so by the claim it is an orphan candidate whose owner lookup is attempted (and
would succeed); the callback pushes nothing, as for a workload under control,
while the orphan ns1/d1 does get its lookup and a push.  Likewise ns1/web2,
whose single reference names a missing object, is treated as under control in
a cluster where every other Get succeeds. -/
theorem several_references_under_control :
    (twinDeployment.ObjectMeta.OwnerReferences.filter
      (fun r => decide (r.Kind = "SelectiveDeployment"))).length = 2 ∧
    workloadAddFunc openCluster (.Deployment twinDeployment) = ⟨[], none⟩ ∧
    workloadAddFunc openCluster (.Deployment d1) = ⟨[⟨"ns1/sd1", update⟩], none⟩ ∧
    generousCluster.getSD "ns1" "gone" = none ∧
    workloadAddFunc generousCluster (.Deployment danglingDeployment) = ⟨[], none⟩ ∧
    workloadAddFunc generousCluster (.Deployment d1) = ⟨[⟨"ns1/sd1", update⟩], none⟩ := by
  refine ⟨by decide, by decide, by decide, by decide, by decide, by decide⟩

/-- C14 amended, the under-control test.  An added Deployment, DaemonSet,
StatefulSet, Job or CronJob is treated as under control, meaning that whatever
the cluster holds the callback pushes nothing and its result depends on no
lookup, if and only if it carries at least one owner reference of kind
SelectiveDeployment; whether the named object exists is not checked.  A
workload with no such reference is an orphan candidate: the result of the
callback is the result of one owner lookup in the namespace of the workload. -/
theorem under_control_test (w : Workload) (obj : Obj)
    (hobj : obj ∈ [Obj.Deployment w, Obj.DaemonSet w, Obj.StatefulSet w, Obj.Job w, Obj.CronJob w]) :
    ((∀ c : Cluster, workloadAddFunc c obj = ⟨[], none⟩) ↔
      ∃ r ∈ w.ObjectMeta.OwnerReferences, r.Kind = "SelectiveDeployment") ∧
    ((∀ r ∈ w.ObjectMeta.OwnerReferences, r.Kind ≠ "SelectiveDeployment") →
      ∃ name, ∀ c : Cluster, workloadAddFunc c obj =
        match c.getSD w.ObjectMeta.Namespace name with
        | some ownerSD => ⟨[⟨sdKey ownerSD, update⟩], none⟩
        | none => ⟨[], none⟩) := by
  have horphan : (∀ r ∈ w.ObjectMeta.OwnerReferences, r.Kind ≠ "SelectiveDeployment") →
      ∀ c : Cluster, workloadAddFunc c obj =
        match c.getSD w.ObjectMeta.Namespace "" with
        | some ownerSD => ⟨[⟨sdKey ownerSD, update⟩], none⟩
        | none => ⟨[], none⟩ := by
    intro hno c
    rw [workloadAddFunc_kinds c w obj hobj]
    exact workloadAddCase_orphan c w hno
  refine ⟨⟨?_, ?_⟩, fun hno => ⟨"", horphan hno⟩⟩
  · intro hall
    by_contra hnone
    have hno : ∀ r ∈ w.ObjectMeta.OwnerReferences, r.Kind ≠ "SelectiveDeployment" :=
      fun r hr hk => hnone ⟨r, hr, hk⟩
    have h1 := horphan hno openCluster
    rw [hall openCluster] at h1
    simp [openCluster] at h1
  · intro hex c
    rw [workloadAddFunc_kinds c w obj hobj]
    exact workloadAddCase_controlled c w hex

theorem under_control_test_witness :
    Obj.DaemonSet danglingDeployment ∈
      [Obj.Deployment danglingDeployment, Obj.DaemonSet danglingDeployment,
        Obj.StatefulSet danglingDeployment, Obj.Job danglingDeployment,
        Obj.CronJob danglingDeployment] ∧
    ∀ c : Cluster, workloadAddFunc c (.DaemonSet danglingDeployment) = ⟨[], none⟩ :=
  ⟨by decide,
    (under_control_test danglingDeployment (.DaemonSet danglingDeployment) (by decide)).1.mpr
      ⟨⟨"SelectiveDeployment", "gone"⟩, by decide, rfl⟩⟩

/-! ## First qualifying selector wins -/

theorem recoveryScanRow_cases (sd : SelectiveDeployment) :
    recoveryScanRow sd = [] ∨ recoveryScanRow sd = [⟨sdKey sd, update⟩] := by
  have hlen := recoveryScanRow_length_le sd
  cases hrow : recoveryScanRow sd with
  | nil => exact Or.inl rfl
  | cons e rest =>
    rw [hrow] at hlen
    have hrest : rest = [] := by
      cases rest with
      | nil => rfl
      | cons _ _ => simp at hlen
    subst hrest
    have he : e = ⟨sdKey sd, update⟩ :=
      recoveryScanRow_sub sd e (by rw [hrow]; exact List.mem_singleton.mpr rfl)
    exact Or.inr (by rw [he])

theorem recoveryScan_sublist (l : List SelectiveDeployment) :
    List.Sublist (recoveryScan l) (l.map (fun sd => (⟨sdKey sd, update⟩ : informerevent))) := by
  induction l with
  | nil => exact List.Sublist.slnil
  | cons sd rest ih =>
    simp only [recoveryScan, List.map_cons]
    rcases recoveryScanRow_cases sd with h | h
    · rw [h, List.nil_append]
      exact List.Sublist.cons _ ih
    · rw [h, List.singleton_append]
      exact List.Sublist.cons₂ _ ih

theorem recoveryScan_nodup (l : List SelectiveDeployment) (h : (l.map sdKey).Nodup) :
    (recoveryScan l).Nodup := by
  have hmap : (l.map (fun sd => (⟨sdKey sd, update⟩ : informerevent))).Nodup := by
    have hinj : Function.Injective (fun k : String => (⟨k, update⟩ : informerevent)) := by
      intro a b hab
      exact congrArg informerevent.key hab
    have := List.Nodup.map hinj h
    rw [List.map_map] at this
    exact this
  exact List.Nodup.sublist (recoveryScan_sublist l) hmap

theorem nodeAddConditions_no_ready (c : Cluster) (obj : Obj) (conds : List NodeCondition)
    (h : ∀ row ∈ conds, row.Type_ ≠ "Ready") :
    (nodeAddConditions c obj conds).pushes = [] := by
  induction conds with
  | nil => rfl
  | cons row rest ih =>
    unfold nodeAddConditions
    rw [if_neg (h row (List.mem_cons_self _ _))]
    exact ih (fun r hr => h r (List.mem_cons_of_mem _ hr))

theorem nodeAddConditions_single_ready (c : Cluster) (n : Node) (conds : List NodeCondition)
    (h : (conds.filter (fun row => decide (row.Type_ = "Ready"))).length ≤ 1) :
    (nodeAddConditions c (.Node n) conds).pushes = [] ∨
      (nodeAddConditions c (.Node n) conds).pushes = recoveryScan c.sdList := by
  induction conds with
  | nil => exact Or.inl rfl
  | cons row rest ih =>
    unfold nodeAddConditions
    by_cases ht : row.Type_ = "Ready"
    · have hrest : ∀ r ∈ rest, r.Type_ ≠ "Ready" := by
        intro r hr hk
        have hmem : r ∈ rest.filter (fun row => decide (row.Type_ = "Ready")) := by
          simp [List.mem_filter, hr, hk]
        have hpos : 0 < (rest.filter (fun row => decide (row.Type_ = "Ready"))).length :=
          List.length_pos_of_mem hmem
        simp only [List.filter_cons, ht, decide_True, if_true, List.length_cons] at h
        omega
      have hnil := nodeAddConditions_no_ready c (.Node n) rest hrest
      rw [if_pos ht]
      by_cases hs : row.Status = trueStr
      · rw [if_pos hs]
        refine Or.inr ?_
        simp only [metaKey_node, hnil, List.append_nil]
      · rw [if_neg hs]
        exact Or.inl hnil
    · rw [if_neg ht]
      apply ih
      simpa [List.filter_cons, ht] using h

theorem selectorLoop_stops (sd : SelectiveDeployment) (pre : List Selector) (sel : Selector)
    (post post2 : List Selector)
    (hq : sel.Quantity = 0 ∨ (sel.Quantity ≠ 0 ∧ fewerNodes sd.Status.Message = true)) :
    selectorLoop sd (pre ++ sel :: post) = selectorLoop sd (pre ++ sel :: post2) := by
  induction pre with
  | nil => simp only [List.nil_append, selectorLoop, if_pos hq]
  | cons s0 rest ih =>
    simp only [List.cons_append, selectorLoop]
    split
    · rfl
    · exact ih

/-- C15, first qualifying selector wins.  For a node add event on a node with at
most one condition of type Ready, and for a node update that takes the
recovery-scan branch: the pushes are a sublist of the listing (each listed
SelectiveDeployment contributes its item at most once, in listing order), so
when the listed keys are distinct no item is pushed twice; and a listed object
with an empty selector list, whose key no other listed object shares, is not
pushed.  The scan of the selectors ends at a qualifying selector: the selectors
that follow it, qualifying or not, do not change the outcome. -/
theorem first_selector_wins (c : Cluster) :
    (∀ nodeObj : Node,
      (nodeObj.Status.Conditions.filter (fun row => decide (row.Type_ = "Ready"))).length ≤ 1 →
        List.Sublist (nodeAddFunc c (.Node nodeObj)).pushes
          (c.sdList.map (fun sd => (⟨sdKey sd, update⟩ : informerevent))) ∧
        ((c.sdList.map sdKey).Nodup →
          ∀ item, (nodeAddFunc c (.Node nodeObj)).pushes.count item ≤ 1) ∧
        (∀ sd ∈ c.sdList, sd.Spec.Selector = [] →
          (∀ other ∈ c.sdList, sdKey other = sdKey sd → other = sd) →
            (⟨sdKey sd, update⟩ : informerevent) ∉ (nodeAddFunc c (.Node nodeObj)).pushes)) ∧
    (∀ oldObj newObj : Node,
      supplyCondition (c.GetConditionReadyStatus oldObj) (c.GetConditionReadyStatus newObj)
          oldObj newObj →
        List.Sublist (nodeUpdateFunc c (.Node oldObj) (.Node newObj)).pushes
          (c.sdList.map (fun sd => (⟨sdKey sd, update⟩ : informerevent))) ∧
        ((c.sdList.map sdKey).Nodup →
          ∀ item, (nodeUpdateFunc c (.Node oldObj) (.Node newObj)).pushes.count item ≤ 1) ∧
        (∀ sd ∈ c.sdList, sd.Spec.Selector = [] →
          (∀ other ∈ c.sdList, sdKey other = sdKey sd → other = sd) →
            (⟨sdKey sd, update⟩ : informerevent) ∉
              (nodeUpdateFunc c (.Node oldObj) (.Node newObj)).pushes)) ∧
    (∀ (sd : SelectiveDeployment) (pre : List Selector) (sel : Selector)
        (post post2 : List Selector),
      (sel.Quantity = 0 ∨
        (sel.Quantity ≠ 0 ∧
          ∃ m ∈ sd.Status.Message, stringsContains m "Fewer nodes issue" = true)) →
        selectorLoop sd (pre ++ sel :: post) = selectorLoop sd (pre ++ sel :: post2) ∧
        (selectorLoop sd (pre ++ sel :: post)).length = 1) := by
  have hscan_sub := recoveryScan_sublist c.sdList
  have hscan_count : (c.sdList.map sdKey).Nodup → ∀ item, (recoveryScan c.sdList).count item ≤ 1 :=
    fun hn item => List.nodup_iff_count_le_one.mp (recoveryScan_nodup c.sdList hn) item
  have hscan_empty : ∀ sd ∈ c.sdList, sd.Spec.Selector = [] →
      (∀ other ∈ c.sdList, sdKey other = sdKey sd → other = sd) →
        (⟨sdKey sd, update⟩ : informerevent) ∉ recoveryScan c.sdList := by
    intro sd hsd hempty huniq hmem
    have h := (mem_recoveryScan_of_unique c.sdList sd hsd huniq).mp hmem
    obtain ⟨_, _, sel, hs, _⟩ := h
    rw [hempty] at hs
    simp at hs
  refine ⟨?_, ?_, ?_⟩
  · intro nodeObj hone
    have hcases := nodeAddConditions_single_ready c nodeObj nodeObj.Status.Conditions hone
    change (nodeAddFunc c (.Node nodeObj)).pushes = [] ∨
      (nodeAddFunc c (.Node nodeObj)).pushes = recoveryScan c.sdList at hcases
    rcases hcases with h | h
    · rw [h]
      exact ⟨List.nil_sublist _, fun _ item => by simp, fun sd _ _ _ => by simp⟩
    · rw [h]
      exact ⟨hscan_sub, hscan_count, hscan_empty⟩
  · intro oldObj newObj hs
    rw [nodeUpdateFunc_supply c oldObj newObj hs]
    exact ⟨hscan_sub, hscan_count, hscan_empty⟩
  · intro sd pre sel post post2 hq
    have hq2 : sel.Quantity = 0 ∨ (sel.Quantity ≠ 0 ∧ fewerNodes sd.Status.Message = true) := by
      rcases hq with h | ⟨h1, h2⟩
      · exact Or.inl h
      · exact Or.inr ⟨h1, (fewerNodes_iff _).mpr h2⟩
    refine ⟨selectorLoop_stops sd pre sel post post2 hq2, ?_⟩
    have hmem : (⟨sdKey sd, update⟩ : informerevent) ∈ selectorLoop sd (pre ++ sel :: post) :=
      (mem_selectorLoop sd _ _).mpr ⟨rfl, sel, by simp, hq2⟩
    have hle := selectorLoop_length_le sd (pre ++ sel :: post)
    have hpos := List.length_pos_of_mem hmem
    omega

theorem first_selector_wins_witness :
    (nodeAddFunc scanCluster (.Node (sampleNode "n1" "True" false))).pushes.count
      ⟨"ns1/sd4", update⟩ ≤ 1 ∧
    (⟨"ns1/sd5", update⟩ : informerevent) ∉
      (nodeAddFunc scanCluster (.Node (sampleNode "n1" "True" false))).pushes ∧
    (nodeUpdateFunc scanCluster (.Node (sampleNode "n1" "Unknown" false))
      (.Node (sampleNode "n1" "True" false))).pushes.count ⟨"ns1/sd4", update⟩ ≤ 1 ∧
    (selectorLoop sd4 sd4.Spec.Selector).length = 1 :=
  have hadd := (first_selector_wins scanCluster).1 (sampleNode "n1" "True" false) (by decide)
  have hupd := (first_selector_wins scanCluster).2.1 (sampleNode "n1" "Unknown" false)
    (sampleNode "n1" "True" false) (by decide)
  ⟨hadd.2.1 (by decide) _, hadd.2.2 sd5 (by decide) rfl (by decide),
    hupd.2.1 (by decide) _,
    ((first_selector_wins scanCluster).2.2 sd4 [] ⟨0⟩ [⟨2⟩] [] (Or.inl rfl)).2⟩

/-! ## The run loop -/

/-- Whatever the caches report, `run` calls `Init` first and never starts the
Job and CronJob informers. -/
theorem run_never_starts_job_informers (HasSynced : Informer → Bool) :
    (run HasSynced).head? = some .Init ∧
    RunStep.Run .jobInformer ∉ run HasSynced ∧
    RunStep.Run .cronJobInformer ∉ run HasSynced := by
  unfold run
  split <;> simp

/-- When the sync wait fails, `run` reports the error and never starts the worker. -/
theorem run_sync_failure (HasSynced : Informer → Bool)
    (h : waitedInformers.all HasSynced = false) :
    RunStep.runWorker ∉ run HasSynced ∧
    RunStep.HandleError "Error syncing cache" ∈ run HasSynced := by
  unfold run
  rw [if_pos h]
  simp

/-- C16, the run loop, evaluated where it breaks.  The Job and CronJob caches
never report their initial sync and the five others do.  The method calls Init
first, starts the watch loops of the SelectiveDeployment, Node, Deployment,
DaemonSet and StatefulSet caches only, waits for those five only, and starts
the worker although two of the seven caches were neither started nor synced. -/
theorem run_skips_job_informers :
    startedSync .jobInformer = false ∧
    startedSync .cronJobInformer = false ∧
    run startedSync =
      [.Init, .Run .informer, .Run .nodeInformer, .Run .deploymentInformer,
        .Run .daemonSetInformer, .Run .statefulSetInformer,
        .WaitForCacheSync
          [.informer, .nodeInformer, .deploymentInformer, .daemonSetInformer,
            .statefulSetInformer],
        .runWorker, .waitStop, .ShutDown] ∧
    RunStep.Run .jobInformer ∉ run startedSync ∧
    RunStep.Run .cronJobInformer ∉ run startedSync ∧
    RunStep.runWorker ∈ run startedSync := by
  refine ⟨by decide, by decide, by decide, by decide, by decide, by decide⟩

/-! ## Handler calls after a lookup error -/

/-- C17, handler calls after a lookup error, evaluated where it breaks.  The
queue holds the delete item of ns1/sd1 and the lookup returns an error with no
object.  The step requeues the key and then, without returning, goes on to the
dispatch and calls ObjectDeleted. -/
theorem handler_called_after_lookup_error :
    (lookupFails "ns1/sd1").err = some "lookup failed" ∧
    (processNextItem lookupFails queueDelete).calls =
      [.AddRateLimited "ns1/sd1", .ObjectDeleted none, .Forget "ns1/sd1",
        .Done (.event ⟨"ns1/sd1", delete⟩)] ∧
    (processNextItem lookupFails queueDelete).calls.filter Call.isHandler
      = [.ObjectDeleted none] := by
  refine ⟨by decide, by decide, by decide⟩

/-! ## The two paths of a node update -/

theorem ownerLoop_congr (c1 c2 : Cluster) (h : c1.getSD = c2.getSD)
    (l : List (String × String)) : ownerLoop c1 l = ownerLoop c2 l := by
  induction l with
  | nil => rfl
  | cons o rest ih =>
    unfold ownerLoop
    rw [h, ih]

theorem nodeUpdateFunc_no_supply (c : Cluster) (oldObj newObj : Node)
    (hs : ¬ supplyCondition (c.GetConditionReadyStatus oldObj) (c.GetConditionReadyStatus newObj)
      oldObj newObj) :
    nodeUpdateFunc c (.Node oldObj) (.Node newObj) =
      if demandCondition (c.GetConditionReadyStatus oldObj) (c.GetConditionReadyStatus newObj)
          oldObj newObj (c.CompareIPAddresses oldObj newObj) then
        if (c.getByNode newObj.ObjectMeta.Name).2 = true then
          ⟨ownerLoop c (c.getByNode newObj.ObjectMeta.Name).1, none⟩
        else ⟨[], none⟩
      else ⟨[], none⟩ := by
  simp only [nodeUpdateFunc, if_neg hs, metaKey_node]

/-- C18, the two paths of the node UpdateFunc.  For every node update, the
result either does not depend on the listing of SelectiveDeployments (no
recovery scan is performed) or does not depend on the ownership index and the
objects fetched for it (getByNode is not consulted): at most one of the two
paths runs.  When the update satisfies a supply condition (Ready from False or
Unknown to True, or Unschedulable from true to false) and a demand condition
(Ready from True to False or Unknown, or Unschedulable from false to true), the
result is that of the recovery scan alone and getByNode is not consulted.  An
update that changes neither readiness, schedulability nor the IP addresses
pushes nothing. -/
theorem node_update_exclusive (c : Cluster) (oldObj newObj : Node) :
    ((∀ l : List SelectiveDeployment,
        nodeUpdateFunc { c with sdList := l } (.Node oldObj) (.Node newObj)
          = nodeUpdateFunc c (.Node oldObj) (.Node newObj)) ∨
      (∀ (g : String → List (String × String) × Bool)
          (gs : String → String → Option SelectiveDeployment),
        nodeUpdateFunc { c with getByNode := g, getSD := gs } (.Node oldObj) (.Node newObj)
          = nodeUpdateFunc c (.Node oldObj) (.Node newObj))) ∧
    ((((c.GetConditionReadyStatus oldObj = falseStr ∨
            c.GetConditionReadyStatus oldObj = unknownStr) ∧
          c.GetConditionReadyStatus newObj = trueStr) ∨
        (oldObj.Spec.Unschedulable = true ∧ newObj.Spec.Unschedulable = false)) →
      ((c.GetConditionReadyStatus oldObj = trueStr ∧
          (c.GetConditionReadyStatus newObj = falseStr ∨
            c.GetConditionReadyStatus newObj = unknownStr)) ∨
        (oldObj.Spec.Unschedulable = false ∧ newObj.Spec.Unschedulable = true)) →
      nodeUpdateFunc c (.Node oldObj) (.Node newObj) = ⟨recoveryScan c.sdList, none⟩ ∧
      ∀ (g : String → List (String × String) × Bool)
          (gs : String → String → Option SelectiveDeployment),
        nodeUpdateFunc { c with getByNode := g, getSD := gs } (.Node oldObj) (.Node newObj)
          = nodeUpdateFunc c (.Node oldObj) (.Node newObj)) ∧
    (c.GetConditionReadyStatus oldObj = c.GetConditionReadyStatus newObj →
      oldObj.Spec.Unschedulable = newObj.Spec.Unschedulable →
      c.CompareIPAddresses oldObj newObj = false →
      nodeUpdateFunc c (.Node oldObj) (.Node newObj) = ⟨[], none⟩) := by
  have hindep : supplyCondition (c.GetConditionReadyStatus oldObj)
      (c.GetConditionReadyStatus newObj) oldObj newObj →
      ∀ (g : String → List (String × String) × Bool)
          (gs : String → String → Option SelectiveDeployment),
        nodeUpdateFunc { c with getByNode := g, getSD := gs } (.Node oldObj) (.Node newObj)
          = nodeUpdateFunc c (.Node oldObj) (.Node newObj) := by
    intro hs g gs
    rw [nodeUpdateFunc_supply c oldObj newObj hs]
    exact nodeUpdateFunc_supply { c with getByNode := g, getSD := gs } oldObj newObj hs
  refine ⟨?_, ?_, ?_⟩
  · by_cases hs : supplyCondition (c.GetConditionReadyStatus oldObj)
        (c.GetConditionReadyStatus newObj) oldObj newObj
    · exact Or.inr (hindep hs)
    · refine Or.inl ?_
      intro l
      rw [nodeUpdateFunc_no_supply c oldObj newObj hs,
        nodeUpdateFunc_no_supply { c with sdList := l } oldObj newObj hs]
      simp only [ownerLoop_congr { c with sdList := l } c rfl]
  · intro hsup _
    have hs : supplyCondition (c.GetConditionReadyStatus oldObj)
        (c.GetConditionReadyStatus newObj) oldObj newObj := by
      rcases hsup with ⟨h1 | h1, h2⟩ | h
      · exact Or.inl ⟨h1, h2⟩
      · exact Or.inr (Or.inl ⟨h1, h2⟩)
      · exact Or.inr (Or.inr h)
    exact ⟨nodeUpdateFunc_supply c oldObj newObj hs, hindep hs⟩
  · intro hr hu hip
    have hne1 : falseStr ≠ trueStr := by decide
    have hne2 : unknownStr ≠ trueStr := by decide
    have hs : ¬ supplyCondition (c.GetConditionReadyStatus oldObj)
        (c.GetConditionReadyStatus newObj) oldObj newObj := by
      rintro (⟨h1, h2⟩ | ⟨h1, h2⟩ | ⟨h1, h2⟩)
      · exact hne1 (h1.symm.trans (hr.trans h2))
      · exact hne2 (h1.symm.trans (hr.trans h2))
      · rw [hu, h2] at h1
        exact Bool.false_ne_true h1
    have hd : ¬ demandCondition (c.GetConditionReadyStatus oldObj)
        (c.GetConditionReadyStatus newObj) oldObj newObj (c.CompareIPAddresses oldObj newObj) := by
      rintro (⟨h1, h2⟩ | ⟨h1, h2⟩ | ⟨h1, h2⟩ | ⟨_, _, h3⟩)
      · exact hne1 (h2.symm.trans (hr.symm.trans h1))
      · exact hne2 (h2.symm.trans (hr.symm.trans h1))
      · rw [hu, h2] at h1
        exact Bool.false_ne_true h1.symm
      · rw [hip] at h3
        exact Bool.false_ne_true h3
    rw [nodeUpdateFunc_no_supply c oldObj newObj hs, if_neg hd]

theorem node_update_exclusive_witness :
    nodeUpdateFunc sampleCluster (.Node (sampleNode "n1" "True" true))
        (.Node (sampleNode "n1" "False" false))
      = ⟨recoveryScan sampleCluster.sdList, none⟩ ∧
    nodeUpdateFunc sampleCluster (.Node (sampleNode "n1" "True" false))
        (.Node (sampleNode "n1" "True" false))
      = ⟨[], none⟩ :=
  ⟨((node_update_exclusive sampleCluster (sampleNode "n1" "True" true)
      (sampleNode "n1" "False" false)).2.1 (Or.inr ⟨rfl, rfl⟩)
        (Or.inl ⟨by decide, Or.inl (by decide)⟩)).1,
    (node_update_exclusive sampleCluster (sampleNode "n1" "True" false)
      (sampleNode "n1" "True" false)).2.2 rfl rfl (by decide)⟩

end selectivedeployment
